import Mathlib

/-!
Verification of the gain-map core of libavif (src/gainmap.c).

The C code is shallowly embedded: IEEE-754 float and double arithmetic is
idealised as exact rational arithmetic over Rat, machine integers are Int/Nat
with explicit wrapping where the width matters, out-of-bounds buffer accesses
are modelled by Option, and external collaborators (transfer functions, color
matrices, allocators, YUV codecs, libm) are parameters gathered in environment
records, mirroring the contracts listed in section 6 of the specification.
-/

namespace GainMap

/-- Result codes returned by the gain-map core (subset of avifResult used in
gainmap.c). -/
inductive AvifResult where
  | ok
  | invalidArgument
  | notImplemented
  | outOfMemory
  | otherError
  deriving DecidableEq, Repr

/-- Signed rational: numerator int32, denominator uint32 (avifSignedFraction).
The int32/uint32 range constraints are stated separately where they matter. -/
structure avifSignedFraction where
  n : ℤ
  d : ℕ
  deriving DecidableEq, Repr

/-- Unsigned rational: numerator uint32, denominator uint32
(avifUnsignedFraction). -/
structure avifUnsignedFraction where
  n : ℕ
  d : ℕ
  deriving DecidableEq, Repr

/-- Minimal model of avifImage: the fields gainmap.c reads or writes, plus a
flag tracking whether its YUV planes are currently allocated. -/
structure avifImage where
  width : ℕ
  height : ℕ
  depth : ℕ
  yuvFormat : ℤ
  planesAllocated : Bool
  deriving DecidableEq, Repr

/-- Modelled from the spec: the CICP pixel-format enum values used by
gainmap.c (avif.h is outside the verified sources). NONE = 0, YUV400 = 4,
COUNT = 5. -/
def AVIF_PIXEL_FORMAT_NONE : ℤ := 0

/-- Modelled from the spec: single-plane monochrome format selector. -/
def AVIF_PIXEL_FORMAT_YUV400 : ℤ := 4

/-- Modelled from the spec: number of pixel formats, exclusive upper bound. -/
def AVIF_PIXEL_FORMAT_COUNT : ℤ := 5

/-- Modelled from the spec: the CICP value for unspecified color primaries
(AVIF_COLOR_PRIMARIES_UNSPECIFIED = 2 in avif.h, outside the verified
sources). -/
def AVIF_COLOR_PRIMARIES_UNSPECIFIED : ℕ := 2

/-- The gain-map metadata record (avifGainMap), with the embedded gain-map
image. useBaseColorSpace is an avifBool, i.e. a C int, hence modelled as an
integer so that out-of-range bit patterns are representable. -/
structure avifGainMap where
  gainMapMin : Fin 3 → avifSignedFraction
  gainMapMax : Fin 3 → avifSignedFraction
  gainMapGamma : Fin 3 → avifUnsignedFraction
  baseOffset : Fin 3 → avifSignedFraction
  alternateOffset : Fin 3 → avifSignedFraction
  baseHdrHeadroom : avifUnsignedFraction
  alternateHdrHeadroom : avifUnsignedFraction
  useBaseColorSpace : ℤ
  altColorPrimaries : ℕ
  image : Option avifImage

instance : DecidableEq avifGainMap := fun a b => by
  cases a; cases b
  rw [avifGainMap.mk.injEq]
  infer_instance

/-- avifGainMapSetEncodingDefaults: seeds the metadata defaults before
encoding. -/
def avifGainMapSetEncodingDefaults (g : avifGainMap) : avifGainMap :=
  { g with
    gainMapMin := fun _ => ⟨1, 1⟩
    gainMapMax := fun _ => ⟨1, 1⟩
    baseOffset := fun _ => ⟨1, 64⟩
    alternateOffset := fun _ => ⟨1, 64⟩
    gainMapGamma := fun _ => ⟨1, 1⟩
    baseHdrHeadroom := ⟨0, 1⟩
    alternateHdrHeadroom := ⟨1, 1⟩
    useBaseColorSpace := 1 }

/-- avifSignedFractionToFloat: n/d with the d = 0 guard returning 0. -/
def avifSignedFractionToFloat (f : avifSignedFraction) : ℚ :=
  if f.d = 0 then 0 else (f.n : ℚ) / (f.d : ℚ)

/-- avifUnsignedFractionToFloat: n/d with the d = 0 guard returning 0. -/
def avifUnsignedFractionToFloat (f : avifUnsignedFraction) : ℚ :=
  if f.d = 0 then 0 else (f.n : ℚ) / (f.d : ℚ)

/-- AVIF_CLAMP from internal.h (Modelled from the spec: clamp x into
[low, high]). -/
def AVIF_CLAMP (x low high : ℚ) : ℚ :=
  if x < low then low else if high < x then high else x

/-- Modelled from the spec: avifRoundf / roundf, round to nearest with halves
away from zero, result as an integer. -/
def avifRoundf (x : ℚ) : ℤ :=
  if 0 ≤ x then ⌊x + 1/2⌋ else ⌈x - 1/2⌉

/-- Linear interpolation helper lerp from gainmap.c. -/
def lerp (a b w : ℚ) : ℚ := (1 - w) * a + w * b

/-- Wrapping of a mathematical integer into the int64 two's-complement range,
modelling C int64_t arithmetic. -/
def wrap64 (x : ℤ) : ℤ := (x + 2 ^ 63) % 2 ^ 64 - 2 ^ 63

/-- avifGainMapValidateMetadata: per-channel denominator, cross-multiplied
min/max ordering (in int64 arithmetic), gamma numerator, headroom denominators
and the useBaseColorSpace range check. Any failure yields InvalidArgument. -/
def avifGainMapValidateMetadata (g : avifGainMap) : AvifResult :=
  if (∀ i : Fin 3,
        ((g.gainMapMin i).d ≠ 0 ∧ (g.gainMapMax i).d ≠ 0 ∧ (g.gainMapGamma i).d ≠ 0 ∧
         (g.baseOffset i).d ≠ 0 ∧ (g.alternateOffset i).d ≠ 0) ∧
        ¬ (wrap64 ((g.gainMapMax i).n * ((g.gainMapMin i).d : ℤ)) <
           wrap64 ((g.gainMapMin i).n * ((g.gainMapMax i).d : ℤ))) ∧
        (g.gainMapGamma i).n ≠ 0) ∧
     g.baseHdrHeadroom.d ≠ 0 ∧ g.alternateHdrHeadroom.d ≠ 0 ∧
     (g.useBaseColorSpace = 0 ∨ g.useBaseColorSpace = 1)
  then .ok else .invalidArgument

/-- avifSameGainMapMetadata: structural comparison of the two headrooms and
the five per-channel fraction arrays, raw numerators and denominators. -/
def avifSameGainMapMetadata (a b : avifGainMap) : Bool :=
  if a.baseHdrHeadroom.n ≠ b.baseHdrHeadroom.n ∨ a.baseHdrHeadroom.d ≠ b.baseHdrHeadroom.d ∨
     a.alternateHdrHeadroom.n ≠ b.alternateHdrHeadroom.n ∨
     a.alternateHdrHeadroom.d ≠ b.alternateHdrHeadroom.d then
    false
  else if ∃ c : Fin 3,
      (a.gainMapMin c).n ≠ (b.gainMapMin c).n ∨ (a.gainMapMin c).d ≠ (b.gainMapMin c).d ∨
      (a.gainMapMax c).n ≠ (b.gainMapMax c).n ∨ (a.gainMapMax c).d ≠ (b.gainMapMax c).d ∨
      (a.gainMapGamma c).n ≠ (b.gainMapGamma c).n ∨ (a.gainMapGamma c).d ≠ (b.gainMapGamma c).d ∨
      (a.baseOffset c).n ≠ (b.baseOffset c).n ∨ (a.baseOffset c).d ≠ (b.baseOffset c).d ∨
      (a.alternateOffset c).n ≠ (b.alternateOffset c).n ∨
      (a.alternateOffset c).d ≠ (b.alternateOffset c).d then
    false
  else
    true

/-- avifGetGainMapWeight: weight in [-1, 1] describing how much of the gain
map to apply for a given target HDR headroom. -/
def avifGetGainMapWeight (hdrHeadroom : ℚ) (g : avifGainMap) : ℚ :=
  let baseHdrHeadroom := avifUnsignedFractionToFloat g.baseHdrHeadroom
  let alternateHdrHeadroom := avifUnsignedFractionToFloat g.alternateHdrHeadroom
  if baseHdrHeadroom = alternateHdrHeadroom then
    0
  else
    let w := AVIF_CLAMP ((hdrHeadroom - baseHdrHeadroom) / (alternateHdrHeadroom - baseHdrHeadroom)) 0 1
    if alternateHdrHeadroom < baseHdrHeadroom then -w else w

/-! ## Robust range estimator (avifFindMinMaxWithoutOutliers) -/

/-- The running minimum of the initial scan of avifFindMinMaxWithoutOutliers:
min starts at gainMapF[0] and folds min over the remaining elements. -/
def listMin (v0 : ℚ) (rest : List ℚ) : ℚ := rest.foldl min v0

/-- The running maximum of the initial scan of avifFindMinMaxWithoutOutliers. -/
def listMax (v0 : ℚ) (rest : List ℚ) : ℚ := rest.foldl max v0

/-- avifValueToBucketIdx: clamp the value into [bucketMin, bucketMax] and map
it to a bucket index, capped at numBuckets - 1. -/
def avifValueToBucketIdx (v bucketMin bucketMax : ℚ) (numBuckets : ℤ) : ℤ :=
  min (avifRoundf ((AVIF_CLAMP v bucketMin bucketMax - bucketMin) /
        (bucketMax - bucketMin) * (numBuckets : ℚ))) (numBuckets - 1)

/-- avifBucketIdxToValue: lower end of the value range of a bucket. -/
def avifBucketIdxToValue (idx : ℤ) (bucketMin bucketMax : ℚ) (numBuckets : ℤ) : ℚ :=
  (idx : ℚ) * (bucketMax - bucketMin) / (numBuckets : ℚ) + bucketMin

/-- The histogram built by avifFindMinMaxWithoutOutliers: number of buffer
elements falling into bucket k. Incrementing cells one element at a time in
the C loop yields exactly these per-bucket counts. -/
def histBucket (buf : List ℚ) (bucketMin bucketMax : ℚ) (numBuckets : ℤ) (k : ℕ) : ℕ :=
  buf.countP fun v => decide (avifValueToBucketIdx v bucketMin bucketMax numBuckets = (k : ℤ))

/-- The left-to-right outlier scan of avifFindMinMaxWithoutOutliers. rem is
the number of buckets still to visit, i the current bucket, outliers the
count accumulated so far, cur the current rangeMin. On each bucket the count
is accumulated first; the loop breaks once it exceeds maxOut; an empty bucket
advances rangeMin to the upper end of that bucket. -/
def leftScanGo (hist : ℕ → ℕ) (maxOut : ℤ) (upperEdge : ℕ → ℚ) :
    ℕ → ℕ → ℤ → ℚ → ℚ
  | 0, _, _, cur => cur
  | rem + 1, i, outliers, cur =>
    let outliers2 := outliers + (hist i : ℤ)
    if maxOut < outliers2 then cur
    else leftScanGo hist maxOut upperEdge rem (i + 1) outliers2
           (if hist i = 0 then upperEdge (i + 1) else cur)

/-- The right-to-left outlier scan. The first argument counts down: the call
with i + 1 visits bucket i next, so starting it at numBuckets visits buckets
numBuckets - 1 down to 0. An empty bucket lowers rangeMax to the lower end of
that bucket. -/
def rightScanGo (hist : ℕ → ℕ) (maxOut : ℤ) (lowerEdge : ℕ → ℚ) :
    ℕ → ℤ → ℚ → ℚ
  | 0, _, cur => cur
  | i + 1, outliers, cur =>
    let outliers2 := outliers + (hist i : ℤ)
    if maxOut < outliers2 then cur
    else rightScanGo hist maxOut lowerEdge i outliers2
           (if hist i = 0 then lowerEdge i else cur)

/-- The histogram phase of avifFindMinMaxWithoutOutliers, reached when the
early-return test fails. Returns none if some histogram increment would be
out of bounds (it never is: see the bucket-index bounds lemma). -/
def findMinMaxHistogram (buf : List ℚ) (bMin bMax : ℚ) (maxOut : ℤ) : Option (ℚ × ℚ) :=
  let numBuckets : ℤ := min ⌈(bMax - bMin) / (1/100)⌉ 10000
  if buf.all (fun v => decide (0 ≤ avifValueToBucketIdx v bMin bMax numBuckets ∧
        avifValueToBucketIdx v bMin bMax numBuckets < numBuckets)) then
    let hist : ℕ → ℕ := histBucket buf bMin bMax numBuckets
    some (leftScanGo hist maxOut (fun k => avifBucketIdxToValue (k : ℤ) bMin bMax numBuckets)
            numBuckets.toNat 0 0 bMin,
          rightScanGo hist maxOut (fun k => avifBucketIdxToValue (k : ℤ) bMin bMax numBuckets)
            numBuckets.toNat 0 bMax)
  else
    none

/-- avifFindMinMaxWithoutOutliers. bucketSize = 0.01, maxOutliersRatioConst =
0.001. The function reads gainMapF[0] before any length test, so the empty
buffer is undefined behaviour, modelled as none. histAllocOk models the
success of the histogram avifAlloc; on failure the function returns
OutOfMemory after having stored the raw min and max. -/
def avifFindMinMaxWithoutOutliers (histAllocOk : Bool) (gainMapF : List ℚ) :
    Option (AvifResult × ℚ × ℚ) :=
  match gainMapF with
  | [] => none
  | v0 :: rest =>
    let numPixels : ℕ := (v0 :: rest).length
    let maxOutliersOnEachSide : ℤ := avifRoundf ((numPixels : ℚ) * (1/1000) / 2)
    let bMin := listMin v0 rest
    let bMax := listMax v0 rest
    if bMax - bMin ≤ (1/100) * 2 ∨ maxOutliersOnEachSide = 0 then
      some (.ok, bMin, bMax)
    else if histAllocOk = false then
      some (.outOfMemory, bMin, bMax)
    else
      match findMinMaxHistogram (v0 :: rest) bMin bMax maxOutliersOnEachSide with
      | some (lo, hi) => some (.ok, lo, hi)
      | none => none

/-! ## Apply pipeline (avifRGBImageApplyGainMap) -/

/-- Content light level box (maxCLL, maxPALL), both uint16. -/
structure avifContentLightLevelInformationBox where
  maxCLL : ℕ
  maxPALL : ℕ
  deriving DecidableEq, Repr

/-- Model of avifRGBImage. pixels is the raw byte buffer; px is the decoded
RGBA accessor that the external avifGetRGBAPixel provides for this buffer
(values in [0,1] extended range, per the collaborator contract). -/
structure avifRGBImage where
  width : ℕ
  height : ℕ
  depth : ℕ
  format : ℕ
  isFloat : ℤ
  rowBytes : ℕ
  pixels : List ℕ
  px : ℕ → ℕ → Fin 4 → ℚ

/-- avifLinearRGBConvertColorSpace: multiply the RGB part of an RGBA pixel by
a 3x3 matrix, leaving alpha untouched (external collaborator contract). -/
def avifLinearRGBConvertColorSpace (coeffs : Fin 3 → Fin 3 → ℚ) (rgba : Fin 4 → ℚ) :
    Fin 4 → ℚ :=
  fun k => if h : k.val < 3 then
      ∑ j : Fin 3, coeffs ⟨k.val, h⟩ j * rgba j.castSucc
    else rgba k

/-- External collaborators of the Apply pipeline (section 6 of the spec):
allocation, RGB color-space support, transfer functions, primary matrices,
libm, pixel writing, image view/scale and YUV decoding. -/
structure ApplyEnv where
  pixelBytes : ℕ → ℕ → ℤ → ℕ
  allocToneMapOk : Bool
  rgbInfoOk : ℕ → ℕ → ℤ → Bool
  gammaToLinear : ℕ → ℚ → ℚ
  linearToGamma : ℕ → ℚ → ℚ
  rgbToRgbMatrix : ℕ → ℕ → Option (Fin 3 → Fin 3 → ℚ)
  powf : ℚ → ℚ → ℚ
  exp2f : ℚ → ℚ
  setPx : List ℕ → ℕ → ℕ → (Fin 4 → ℚ) → List ℕ
  setViewRectRes : avifImage → AvifResult
  imageScale : avifImage → ℕ → ℕ → AvifResult × avifImage
  rgbDefaults : avifImage → ℕ × ℕ × ℤ
  allocGainMapRgbOk : Bool
  yuvToRgb : avifImage → AvifResult × (ℕ → ℕ → Fin 4 → ℚ)

/-- SDR_WHITE_NITS. -/
def SDR_WHITE_NITS : ℚ := 203

/-- avifRGBImageApplyGainMap. Null pointers are modelled by none arguments;
undefined behaviour (null dereference, out-of-bounds memcpy, failed assert)
is modelled by a none result. The function returns the result code, the
updated tone-mapped image, and the CLLI box when one was requested and
written. -/
def avifRGBImageApplyGainMap (env : ApplyEnv) (baseImage : Option avifRGBImage)
    (baseColorPrimaries baseTransferCharacteristics : ℕ)
    (gainMap : Option avifGainMap) (hdrHeadroom : ℚ)
    (outputColorPrimaries outputTransferCharacteristics : ℕ)
    (toneMappedImage : Option avifRGBImage) (wantCLLI : Bool) :
    Option (AvifResult × Option avifRGBImage × Option avifContentLightLevelInformationBox) :=
  if hdrHeadroom < 0 then
    some (.invalidArgument, toneMappedImage, none)
  else
    match baseImage, gainMap, toneMappedImage with
    | none, _, _ => some (.invalidArgument, toneMappedImage, none)
    | _, none, _ => some (.invalidArgument, toneMappedImage, none)
    | _, _, none => some (.invalidArgument, toneMappedImage, none)
    | some base, some gm, some tm0 =>
      if avifGainMapValidateMetadata gm ≠ .ok then
        some (.invalidArgument, some tm0, none)
      else
        let width := base.width
        let height := base.height
        let useBaseColorSpace := gm.useBaseColorSpace
        let gainMapMathPrimaries :=
          if useBaseColorSpace ≠ 0 ∨ gm.altColorPrimaries = AVIF_COLOR_PRIMARIES_UNSPECIFIED
          then baseColorPrimaries else gm.altColorPrimaries
        let needsInputColorConversion := baseColorPrimaries ≠ gainMapMathPrimaries
        let needsOutputColorConversion := gainMapMathPrimaries ≠ outputColorPrimaries
        let tm1 := { tm0 with width := width, height := height }
        if env.allocToneMapOk = false then
          some (.outOfMemory, some tm1, none)
        else
          let rowB := width * env.pixelBytes tm1.format tm1.depth tm1.isFloat
          let tm := { tm1 with rowBytes := rowB, pixels := List.replicate (rowB * height) 0 }
          let weight := avifGetGainMapWeight hdrHeadroom gm
          if weight = 0 ∧ outputTransferCharacteristics = baseTransferCharacteristics ∧
             outputColorPrimaries = baseColorPrimaries ∧ base.format = tm.format ∧
             base.depth = tm.depth ∧ base.isFloat = tm.isFloat then
            -- memcpy fast path, guarded by the rowBytes/height asserts
            if base.rowBytes ≠ tm.rowBytes ∨ base.height ≠ tm.height then none
            else if base.pixels.length < base.rowBytes * base.height then none
            else
              some (.ok, some { tm with
                pixels := base.pixels.take (base.rowBytes * base.height) ++
                          tm.pixels.drop (base.rowBytes * base.height) }, none)
          else
            if env.rgbInfoOk base.format base.depth base.isFloat = false ∨
               env.rgbInfoOk tm.format tm.depth tm.isFloat = false then
              some (.notImplemented, some tm, none)
            else
              let g2l := env.gammaToLinear baseTransferCharacteristics
              let l2g := env.linearToGamma outputTransferCharacteristics
              if weight = 0 then
                -- weight-zero, formats differ: plain RGB-to-RGB conversion
                let primariesDiffer := baseColorPrimaries ≠ outputColorPrimaries
                if primariesDiffer ∧
                   env.rgbToRgbMatrix baseColorPrimaries outputColorPrimaries = none then
                  some (.notImplemented, some tm, none)
                else
                  let conversionCoeffs :=
                    (env.rgbToRgbMatrix baseColorPrimaries outputColorPrimaries).getD fun _ _ => 0
                  let finalPixels := (List.range height).foldl (fun accRow j =>
                      (List.range width).foldl (fun acc i =>
                        let p0 := base.px i j
                        let p1 :=
                          if outputTransferCharacteristics ≠ baseTransferCharacteristics ∨
                             primariesDiffer then
                            let lin : Fin 4 → ℚ :=
                              fun k => if k.val < 3 then g2l (p0 k) else p0 k
                            let conv :=
                              if primariesDiffer then
                                avifLinearRGBConvertColorSpace conversionCoeffs lin
                              else lin
                            fun k : Fin 4 =>
                              if k.val < 3 then AVIF_CLAMP (l2g (conv k)) 0 1 else conv k
                          else p0
                        env.setPx acc i j p1) accRow) tm.pixels
                  some (.ok, some { tm with pixels := finalPixels }, none)
              else
                -- general tone-mapping path
                match (if needsInputColorConversion then
                         env.rgbToRgbMatrix baseColorPrimaries gainMapMathPrimaries
                       else some fun _ _ => 0),
                      (if needsOutputColorConversion then
                         env.rgbToRgbMatrix gainMapMathPrimaries outputColorPrimaries
                       else some fun _ _ => 0) with
                | none, _ => some (.notImplemented, some tm, none)
                | some _, none => some (.notImplemented, some tm, none)
                | some inputCoeffs, some outputCoeffs =>
                  match gm.image with
                  | none => none  -- null dereference of gainMap->image
                  | some gmImg0 =>
                    let scaled :=
                      if gmImg0.width ≠ width ∨ gmImg0.height ≠ height then
                        if env.setViewRectRes gmImg0 ≠ .ok then
                          Sum.inl (env.setViewRectRes gmImg0)
                        else
                          let sres := env.imageScale gmImg0 width height
                          if sres.1 ≠ .ok then Sum.inl sres.1 else Sum.inr sres.2
                      else Sum.inr gmImg0
                    match scaled with
                    | Sum.inl res => some (res, some tm, none)
                    | Sum.inr gainMapImage =>
                      let rgbDesc := env.rgbDefaults gainMapImage
                      if env.allocGainMapRgbOk = false then
                        some (.outOfMemory, some tm, none)
                      else
                        let dec := env.yuvToRgb gainMapImage
                        if dec.1 ≠ .ok then some (dec.1, some tm, none)
                        else
                          if env.rgbInfoOk rgbDesc.1 rgbDesc.2.1 rgbDesc.2.2 = false then
                            some (.notImplemented, some tm, none)
                          else
                            let gammaInv : Fin 3 → ℚ :=
                              fun c => 1 / avifUnsignedFractionToFloat (gm.gainMapGamma c)
                            let gainMapMinF : Fin 3 → ℚ :=
                              fun c => avifSignedFractionToFloat (gm.gainMapMin c)
                            let gainMapMaxF : Fin 3 → ℚ :=
                              fun c => avifSignedFractionToFloat (gm.gainMapMax c)
                            let baseOffsetF : Fin 3 → ℚ :=
                              fun c => avifSignedFractionToFloat (gm.baseOffset c)
                            let alternateOffsetF : Fin 3 → ℚ :=
                              fun c => avifSignedFractionToFloat (gm.alternateOffset c)
                            let step := (List.range height).foldl (fun accRow j =>
                                (List.range width).foldl (fun acc i =>
                                  let basePixel := base.px i j
                                  let gmPixel := dec.2 i j
                                  let baseLin : Fin 4 → ℚ :=
                                    fun k => if k.val < 3 then g2l (basePixel k) else basePixel k
                                  let baseMath :=
                                    if needsInputColorConversion then
                                      avifLinearRGBConvertColorSpace inputCoeffs baseLin
                                    else baseLin
                                  let toneMapped : Fin 3 → ℚ := fun c =>
                                    let gainMapLog2 :=
                                      lerp (gainMapMinF c) (gainMapMaxF c)
                                        (env.powf (gmPixel c.castSucc) (gammaInv c))
                                    (baseMath c.castSucc + baseOffsetF c) *
                                        env.exp2f (gainMapLog2 * weight) - alternateOffsetF c
                                  let pixelMax :=
                                    max (max (max 0 (toneMapped 0)) (toneMapped 1)) (toneMapped 2)
                                  let rgbMax2 :=
                                    max (max (max acc.2.1 (toneMapped 0)) (toneMapped 1))
                                      (toneMapped 2)
                                  let outConv :=
                                    if needsOutputColorConversion then
                                      avifLinearRGBConvertColorSpace outputCoeffs
                                        (fun k => if h : k.val < 3 then toneMapped ⟨k.val, h⟩ else 0)
                                    else
                                      fun k : Fin 4 =>
                                        if h : k.val < 3 then toneMapped ⟨k.val, h⟩ else 0
                                  let outPixel : Fin 4 → ℚ := fun k =>
                                    if k.val < 3 then AVIF_CLAMP (l2g (outConv k)) 0 1
                                    else basePixel k
                                  (env.setPx acc.1 i j outPixel, rgbMax2, acc.2.2 + pixelMax))
                                accRow) (tm.pixels, (0 : ℚ), (0 : ℚ))
                            let clliOut :=
                              if wantCLLI then
                                some { maxCLL :=
                                         (min (max (avifRoundf (step.2.1 * SDR_WHITE_NITS)) 0)
                                           65535).toNat,
                                       maxPALL :=
                                         (min (max (avifRoundf
                                           (step.2.2 / ((width : ℚ) * (height : ℚ)) *
                                             SDR_WHITE_NITS)) 0) 65535).toNat }
                              else none
                            some (.ok, some { tm with pixels := step.1 }, clliOut)

/-! ## Compute pipeline (avifRGBImageComputeGainMap) -/

/-- kEpsilon from gainmap.c (1e-10f). -/
def kEpsilon : ℚ := 1 / 10 ^ 10

/-- External collaborators of the Compute pipeline, together with the two
process-wide manual headroom configuration doubles read by Compute. -/
structure ComputeEnv where
  rgbInfoOk : ℕ → ℕ → ℤ → Bool
  rgbToRgbMatrix : ℕ → ℕ → Option (Fin 3 → Fin 3 → ℚ)
  yCoeffs : ℕ → Fin 3 → ℚ
  gammaToLinear : ℕ → ℚ → ℚ
  log2f : ℚ → ℚ
  powf : ℚ → ℚ → ℚ
  allocFOk : Fin 3 → Bool
  doubleToUnsignedFraction : ℚ → Option avifUnsignedFraction
  doubleToSignedFraction : ℚ → Option avifSignedFraction
  histAllocOk : Bool
  allocPlanesOk : Bool
  rgbDefaults : avifImage → ℕ × ℕ × ℤ
  allocRgbOk : Bool
  setPx : List ℕ → ℕ → ℕ → (Fin 4 → ℚ) → List ℕ
  rgbToYuvRes : List ℕ → AvifResult
  imageScale : avifImage → ℕ → ℕ → AvifResult × avifImage
  manualBaseHdrHeadroom : ℚ
  manualAlternateHdrHeadroom : ℚ

/-- Which transient resources of avifRGBImageComputeGainMap are still
allocated: the three per-channel float buffers gainMapF[c], the scratch RGB
pixel buffer, and the YUV planes of the gain-map image. -/
structure LiveState where
  gainMapF : Fin 3 → Bool
  rgbPixels : Bool
  yuvPlanes : Bool

/-- The cleanup block of avifRGBImageComputeGainMap: frees every gainMapF
buffer and the scratch RGB pixels, and frees the gain-map image planes when
the result is not OK. -/
def computeCleanup (res : AvifResult) (l : LiveState) : LiveState :=
  { gainMapF := fun _ => false
    rgbPixels := false
    yuvPlanes := if res ≠ .ok then false else l.yuvPlanes }

/-- avifChooseColorSpaceForGainMapMath: pick the larger of the two primaries
by converting the three unit primaries both ways and comparing the smallest
channel value seen in each target space; ties go to the base. -/
def avifChooseColorSpaceForGainMapMath (env : ComputeEnv)
    (basePrimaries altPrimaries : ℕ) : Except AvifResult ℕ :=
  if basePrimaries = altPrimaries then .ok basePrimaries
  else
    match env.rgbToRgbMatrix basePrimaries altPrimaries,
          env.rgbToRgbMatrix altPrimaries basePrimaries with
    | some baseToAltCoeffs, some altToBaseCoeffs =>
      let unit : Fin 3 → Fin 4 → ℚ := fun c k => if k.val = c.val then 1 else 0
      let baseColorspaceChannelMin := (List.finRange 3).foldl (fun acc c =>
          (List.finRange 3).foldl (fun acc2 i =>
            min acc2 (avifLinearRGBConvertColorSpace altToBaseCoeffs (unit c) i.castSucc))
            acc) (0 : ℚ)
      let altColorspaceChannelMin := (List.finRange 3).foldl (fun acc c =>
          (List.finRange 3).foldl (fun acc2 i =>
            min acc2 (avifLinearRGBConvertColorSpace baseToAltCoeffs (unit c) i.castSucc))
            acc) (0 : ℚ)
      .ok (if altColorspaceChannelMin ≤ baseColorspaceChannelMin then basePrimaries
           else altPrimaries)
    | _, _ => .error .notImplemented

/-- The per-channel minimum pre-pass of Compute (lines 610-635): linearize
the rendition that is not in math primaries, convert it, and track the
smallest value seen in each channel, starting from 0. -/
def computeChannelMin (env : ComputeEnv) (img : avifRGBImage) (trans : ℕ)
    (coeffs : Fin 3 → Fin 3 → ℚ) (width height : ℕ) : Fin 3 → ℚ :=
  (List.range (height * width)).foldl (fun acc t =>
    let j := t / width
    let i := t % width
    let p0 := img.px i j
    let lin : Fin 4 → ℚ := fun k => if k.val < 3 then env.gammaToLinear trans (p0 k) else p0 k
    let conv := avifLinearRGBConvertColorSpace coeffs lin
    fun c => min (acc c) (conv c.castSucc)) (fun _ => 0)

/-- The offset widening of Compute (lines 637-649): when a channel minimum is
below -kEpsilon, widen the offset of the rendition that was converted, capped
at the empirical maximum offset 0.1. -/
def computeAdjustedOffsets (chMin : Fin 3 → ℚ) (useBaseCS : Bool)
    (baseOff0 altOff0 : Fin 3 → ℚ) : (Fin 3 → ℚ) × (Fin 3 → ℚ) :=
  (fun c => if chMin c < -kEpsilon ∧ useBaseCS = false
            then min (baseOff0 c - chMin c) (1/10) else baseOff0 c,
   fun c => if chMin c < -kEpsilon ∧ useBaseCS = true
            then min (altOff0 c - chMin c) (1/10) else altOff0 c)

/-- One raw gain-map sample of the Compute main pass (lines 655-697): both
pixels linearized, the off-space one converted, optionally collapsed to luma,
then the log2 of the offset ratio, floored at kEpsilon. -/
def computeRawGainAt (env : ComputeEnv) (base alt : avifRGBImage)
    (baseTrans altTrans : ℕ) (csDiffer useBaseCS : Bool)
    (coeffs : Fin 3 → Fin 3 → ℚ) (yC : Fin 3 → ℚ) (singleChannel : Bool)
    (baseOffF altOffF : Fin 3 → ℚ) (c : Fin 3) (j i : ℕ) : ℚ :=
  let baseRGBA0 := base.px i j
  let altRGBA0 := alt.px i j
  let baseLin : Fin 4 → ℚ :=
    fun k => if k.val < 3 then env.gammaToLinear baseTrans (baseRGBA0 k) else baseRGBA0 k
  let altLin : Fin 4 → ℚ :=
    fun k => if k.val < 3 then env.gammaToLinear altTrans (altRGBA0 k) else altRGBA0 k
  let baseConv := if csDiffer && !useBaseCS
                  then avifLinearRGBConvertColorSpace coeffs baseLin else baseLin
  let altConv := if csDiffer && useBaseCS
                 then avifLinearRGBConvertColorSpace coeffs altLin else altLin
  let baseV := if singleChannel
               then yC 0 * baseConv 0 + yC 1 * baseConv 1 + yC 2 * baseConv 2
               else baseConv c.castSucc
  let altV := if singleChannel
              then yC 0 * altConv 0 + yC 1 * altConv 1 + yC 2 * altConv 2
              else altConv c.castSucc
  env.log2f (max ((altV + altOffF c) / (baseV + baseOffF c)) kEpsilon)

/-- The raw gain-map buffer for one channel, in the row-major layout
gainMapF[c][j * width + i] of the C code. -/
def computeRawGainF (env : ComputeEnv) (base alt : avifRGBImage)
    (baseTrans altTrans : ℕ) (csDiffer useBaseCS : Bool)
    (coeffs : Fin 3 → Fin 3 → ℚ) (yC : Fin 3 → ℚ) (singleChannel : Bool)
    (baseOffF altOffF : Fin 3 → ℚ) (width height : ℕ) (c : Fin 3) : List ℚ :=
  (List.range (height * width)).map fun t =>
    computeRawGainAt env base alt baseTrans altTrans csDiffer useBaseCS coeffs yC
      singleChannel baseOffF altOffF c (t / width) (t % width)

/-- The sign-flip pass of Compute (lines 708-719): when the alternate
headroom is below the base headroom, every value of the buffer is multiplied
by -1 so that the gain map stores the HDR-to-SDR log ratio. -/
def computeSignFlip (alternateHeadroom baseHeadroom : ℚ) (gainF : List ℚ) : List ℚ :=
  if alternateHeadroom < baseHeadroom then gainF.map (fun v => v * (-1)) else gainF

/-- The normalization pass of Compute (lines 742-766): map [minLog2, maxLog2]
onto [0, 1] through the encoding gamma, or zero the buffer if the range is
empty. -/
def computeNormalize (gammaF minLog2 maxLog2 : ℚ) (powf : ℚ → ℚ → ℚ)
    (gainF : List ℚ) : List ℚ :=
  let range := max (maxLog2 - minLog2) 0
  if range = 0 then gainF.map fun _ => 0
  else gainF.map fun v =>
    AVIF_CLAMP (powf ((AVIF_CLAMP v minLog2 maxLog2 - minLog2) / range) gammaF) 0 1

/-- YUV-plane allocation state of the gain-map image of an optional gain
map (used for the initial liveness state). -/
def gainMapPlanes : Option avifGainMap → Bool
  | some gm => match gm.image with
    | some img => img.planesAllocated
    | none => false
  | none => false

/-- The per-channel metadata serialization step of Compute (lines 731-740)
for one channel: min, max, alternate offset, base offset in order, each write
landing before the next conversion can fail; a failure carries the partially
updated metadata. -/
def computeWriteChannel (env : ComputeEnv) (minLog2 maxLog2 : Fin 3 → ℚ)
    (singleChannel : Bool) (baseOffF altOffF : Fin 3 → ℚ) (g : avifGainMap)
    (c : Fin 3) : Except avifGainMap avifGainMap :=
  let idx : Fin 3 := if singleChannel then 0 else c
  match env.doubleToSignedFraction (minLog2 idx) with
  | none => .error g
  | some mn =>
    let g1 := { g with gainMapMin := Function.update g.gainMapMin c mn }
    match env.doubleToSignedFraction (maxLog2 idx) with
    | none => .error g1
    | some mx =>
      let g2 := { g1 with gainMapMax := Function.update g1.gainMapMax c mx }
      match env.doubleToSignedFraction (altOffF c) with
      | none => .error g2
      | some ao =>
        let g3 := { g2 with alternateOffset := Function.update g2.alternateOffset c ao }
        match env.doubleToSignedFraction (baseOffF c) with
        | none => .error g3
        | some bo => .ok { g3 with baseOffset := Function.update g3.baseOffset c bo }

/-- avifRGBImageComputeGainMap. The result is the returned avifResult, the
liveness state of the transient resources at the moment of return, and the
(possibly partially updated) gain map. none models undefined behaviour (an
out-of-bounds read in the estimator when width * height = 0). -/
def avifRGBImageComputeGainMap (env : ComputeEnv)
    (baseRgbImage : Option avifRGBImage)
    (baseColorPrimaries baseTransferCharacteristics : ℕ)
    (altRgbImage : Option avifRGBImage)
    (altColorPrimaries altTransferCharacteristics : ℕ)
    (gainMap : Option avifGainMap) :
    Option (AvifResult × LiveState × Option avifGainMap) :=
  match baseRgbImage, altRgbImage, gainMap with
  | none, _, g => some (.invalidArgument, ⟨fun _ => false, false, gainMapPlanes g⟩, g)
  | _, none, g => some (.invalidArgument, ⟨fun _ => false, false, gainMapPlanes g⟩, g)
  | _, _, none => some (.invalidArgument, ⟨fun _ => false, false, false⟩, none)
  | some base, some alt, some gm =>
    match gm.image with
    | none => some (.invalidArgument, ⟨fun _ => false, false, false⟩, some gm)
    | some img0 =>
      let live0 : LiveState := ⟨fun _ => false, false, img0.planesAllocated⟩
      if base.width ≠ alt.width ∨ base.height ≠ alt.height then
        some (.invalidArgument, live0, some gm)
      else if img0.width = 0 ∨ img0.height = 0 ∨ img0.depth = 0 ∨
              img0.yuvFormat ≤ AVIF_PIXEL_FORMAT_NONE ∨
              AVIF_PIXEL_FORMAT_COUNT ≤ img0.yuvFormat then
        some (.invalidArgument, live0, some gm)
      else
        let csDiffer : Bool := baseColorPrimaries != altColorPrimaries
        match avifChooseColorSpaceForGainMapMath env baseColorPrimaries altColorPrimaries with
        | .error e => some (e, live0, some gm)
        | .ok gainMapMathPrimaries =>
          let width := base.width
          let height := base.height
          if env.rgbInfoOk base.format base.depth base.isFloat = false ∨
             env.rgbInfoOk alt.format alt.depth alt.isFloat = false then
            some (.notImplemented, live0, some gm)
          else
            let singleChannel : Bool := img0.yuvFormat == AVIF_PIXEL_FORMAT_YUV400
            let numGainMapChannels : ℕ := if singleChannel then 1 else 3
            if ∃ c : Fin 3, c.val < numGainMapChannels ∧ env.allocFOk c = false then
              some (.outOfMemory, computeCleanup .outOfMemory live0, some gm)
            else
              let liveA : LiveState :=
                ⟨fun c => decide (c.val < numGainMapChannels), false, img0.planesAllocated⟩
              let gm1 := avifGainMapSetEncodingDefaults gm
              let useBaseCS : Bool := gainMapMathPrimaries == baseColorPrimaries
              let gm2 := { gm1 with useBaseColorSpace := if useBaseCS then 1 else 0 }
              let yC := env.yCoeffs gainMapMathPrimaries
              let coeffsOpt :=
                if csDiffer then
                  if useBaseCS then env.rgbToRgbMatrix altColorPrimaries baseColorPrimaries
                  else env.rgbToRgbMatrix baseColorPrimaries altColorPrimaries
                else some fun _ _ => 0
              match coeffsOpt with
              | none => some (.notImplemented, computeCleanup .notImplemented liveA, some gm2)
              | some coeffs =>
                let baseOff0 : Fin 3 → ℚ := fun c => avifSignedFractionToFloat (gm2.baseOffset c)
                let altOff0 : Fin 3 → ℚ :=
                  fun c => avifSignedFractionToFloat (gm2.alternateOffset c)
                let offs :=
                  if csDiffer then
                    computeAdjustedOffsets
                      (computeChannelMin env (if useBaseCS then alt else base)
                        (if useBaseCS then altTransferCharacteristics
                         else baseTransferCharacteristics) coeffs width height)
                      useBaseCS baseOff0 altOff0
                  else (baseOff0, altOff0)
                let baseOffF := offs.1
                let altOffF := offs.2
                let rawF : Fin 3 → List ℚ := fun c =>
                  computeRawGainF env base alt baseTransferCharacteristics
                    altTransferCharacteristics csDiffer useBaseCS coeffs yC singleChannel
                    baseOffF altOffF width height c
                let baseHeadroom := env.manualBaseHdrHeadroom
                let alternateHeadroom := env.manualAlternateHdrHeadroom
                match env.doubleToUnsignedFraction baseHeadroom with
                | none => some (.invalidArgument, computeCleanup .invalidArgument liveA, some gm2)
                | some bh =>
                  let gm3 := { gm2 with baseHdrHeadroom := bh }
                  match env.doubleToUnsignedFraction alternateHeadroom with
                  | none =>
                    some (.invalidArgument, computeCleanup .invalidArgument liveA, some gm3)
                  | some ah =>
                    let gm4 := { gm3 with alternateHdrHeadroom := ah }
                    let gainF : Fin 3 → List ℚ := fun c =>
                      computeSignFlip alternateHeadroom baseHeadroom (rawF c)
                    let estc : Fin 3 → Option (AvifResult × ℚ × ℚ) := fun c =>
                      if c.val < numGainMapChannels then
                        avifFindMinMaxWithoutOutliers env.histAllocOk (gainF c)
                      else some (.ok, 0, 0)
                    match estc 0, estc 1, estc 2 with
                    | some e0, some e1, some e2 =>
                      let estRes := if e0.1 ≠ .ok then e0.1
                                    else if e1.1 ≠ .ok then e1.1 else e2.1
                      if estRes ≠ .ok then
                        some (estRes, computeCleanup estRes liveA, some gm4)
                      else
                        let gainMapMinLog2 : Fin 3 → ℚ :=
                          fun c => if c.val = 0 then e0.2.1 else if c.val = 1 then e1.2.1
                                   else e2.2.1
                        let gainMapMaxLog2 : Fin 3 → ℚ :=
                          fun c => if c.val = 0 then e0.2.2 else if c.val = 1 then e1.2.2
                                   else e2.2.2
                        match (List.finRange 3).foldlM
                            (computeWriteChannel env gainMapMinLog2 gainMapMaxLog2
                              singleChannel baseOffF altOffF) gm4 with
                        | .error gPart =>
                          some (.invalidArgument, computeCleanup .invalidArgument liveA,
                                some gPart)
                        | .ok gm5 =>
                          let normF : Fin 3 → List ℚ := fun c =>
                            if c.val < numGainMapChannels then
                              computeNormalize
                                (avifUnsignedFractionToFloat (gm5.gainMapGamma c))
                                (gainMapMinLog2 c) (gainMapMaxLog2 c) env.powf (gainF c)
                            else gainF c
                          let requestedWidth := img0.width
                          let requestedHeight := img0.height
                          let img1 :=
                            { img0 with
                              width := width
                              height := height
                              planesAllocated := false }
                          if env.allocPlanesOk = false then
                            some (.outOfMemory, computeCleanup .outOfMemory
                                    { liveA with yuvPlanes := false },
                                  some { gm5 with image := some img1 })
                          else
                            let img2 := { img1 with planesAllocated := true }
                            let liveB := { liveA with yuvPlanes := true }
                            let rgbDesc := env.rgbDefaults img2
                            if env.allocRgbOk = false then
                              some (.outOfMemory, computeCleanup .outOfMemory liveB,
                                    some { gm5 with image := some img2 })
                            else
                              let liveC := { liveB with rgbPixels := true }
                              if env.rgbInfoOk rgbDesc.1 rgbDesc.2.1 rgbDesc.2.2 = false then
                                -- Defect in the C source: this exit returns directly instead
                                -- of jumping to cleanup (gainmap.c line 789), leaking the
                                -- gainMapF buffers, the scratch RGB pixels and the planes.
                                some (.notImplemented, liveC, some { gm5 with image := some img2 })
                              else
                                let scratchBytes := (List.range height).foldl (fun accRow j =>
                                    (List.range width).foldl (fun acc i =>
                                      let t := j * width + i
                                      let r := (normF 0).getD t 0
                                      let g := if singleChannel then r else (normF 1).getD t 0
                                      let b := if singleChannel then r else (normF 2).getD t 0
                                      env.setPx acc i j fun k =>
                                        if k.val = 0 then r else if k.val = 1 then g
                                        else if k.val = 2 then b else 1) accRow) []
                                let yuvRes := env.rgbToYuvRes scratchBytes
                                if yuvRes ≠ .ok then
                                  some (yuvRes, computeCleanup yuvRes liveC,
                                        some { gm5 with image := some img2 })
                                else
                                  if requestedWidth ≠ img2.width ∨
                                     requestedHeight ≠ img2.height then
                                    let sres := env.imageScale img2 requestedWidth
                                                  requestedHeight
                                    if sres.1 ≠ .ok then
                                      -- Defect in the C source: AVIF_CHECKRES also returns
                                      -- directly here, bypassing cleanup (line 810).
                                      some (sres.1, liveC, some { gm5 with image := some img2 })
                                    else
                                      some (.ok, computeCleanup .ok liveC,
                                            some { gm5 with image := some sres.2 })
                                  else
                                    some (.ok, computeCleanup .ok liveC,
                                          some { gm5 with image := some img2 })
                    | _, _, _ => none

/-! ## Spec-side predicates and concrete sample values -/

/-- The int32/uint32 machine ranges of the gain-map min/max fractions, as the
C struct stores them. -/
def GainMapFractionsInRange (g : avifGainMap) : Prop :=
  ∀ c : Fin 3,
    -(2 ^ 31) ≤ (g.gainMapMin c).n ∧ (g.gainMapMin c).n < 2 ^ 31 ∧
    (g.gainMapMin c).d < 2 ^ 32 ∧
    -(2 ^ 31) ≤ (g.gainMapMax c).n ∧ (g.gainMapMax c).n < 2 ^ 31 ∧
    (g.gainMapMax c).d < 2 ^ 32

instance (g : avifGainMap) : Decidable (GainMapFractionsInRange g) := by
  unfold GainMapFractionsInRange; infer_instance

/-- Modelled from the spec: the four metadata invariants of section 3, with
the min/max ordering stated over exact rationals. This is the specification
side of C2, to be compared against avifGainMapValidateMetadata. -/
def GainMapMetadataValidSpec (g : avifGainMap) : Prop :=
  (∀ c : Fin 3,
    (g.gainMapMin c).d ≠ 0 ∧ (g.gainMapMax c).d ≠ 0 ∧ (g.gainMapGamma c).d ≠ 0 ∧
    (g.baseOffset c).d ≠ 0 ∧ (g.alternateOffset c).d ≠ 0) ∧
  g.baseHdrHeadroom.d ≠ 0 ∧ g.alternateHdrHeadroom.d ≠ 0 ∧
  (∀ c : Fin 3,
    ((g.gainMapMin c).n : ℚ) / ((g.gainMapMin c).d : ℚ) ≤
    ((g.gainMapMax c).n : ℚ) / ((g.gainMapMax c).d : ℚ)) ∧
  (∀ c : Fin 3, (g.gainMapGamma c).n ≠ 0) ∧
  (g.useBaseColorSpace = 0 ∨ g.useBaseColorSpace = 1)

instance (g : avifGainMap) : Decidable (GainMapMetadataValidSpec g) := by
  unfold GainMapMetadataValidSpec; infer_instance

/-- A concrete metadata record holding the encoding defaults of section 3. -/
def sampleGainMap : avifGainMap :=
  { gainMapMin := fun _ => ⟨1, 1⟩
    gainMapMax := fun _ => ⟨1, 1⟩
    gainMapGamma := fun _ => ⟨1, 1⟩
    baseOffset := fun _ => ⟨1, 64⟩
    alternateOffset := fun _ => ⟨1, 64⟩
    baseHdrHeadroom := ⟨0, 1⟩
    alternateHdrHeadroom := ⟨1, 1⟩
    useBaseColorSpace := 1
    altColorPrimaries := 1
    image := none }

/-- sampleGainMap with only useBaseColorSpace flipped: a single-field
perturbation in a field avifSameGainMapMetadata does not compare. -/
def sampleGainMapAltCS : avifGainMap := { sampleGainMap with useBaseColorSpace := 0 }

/-- sampleGainMap with equal base and alternate headrooms (weight-zero
configuration). -/
def sampleGainMapEqHeadroom : avifGainMap :=
  { sampleGainMap with alternateHdrHeadroom := ⟨0, 1⟩ }

/-- A concrete 1x1 YUV444 gain-map image descriptor. -/
def sampleYuvImage : avifImage := ⟨1, 1, 8, 1, false⟩

/-- sampleGainMap carrying the concrete gain-map image. -/
def sampleGainMapWithImage : avifGainMap := { sampleGainMap with image := some sampleYuvImage }

/-- A concrete 1x1 base RGB image. -/
def sampleBaseImage : avifRGBImage :=
  { width := 1, height := 1, depth := 8, format := 0, isFloat := 0, rowBytes := 4,
    pixels := [9, 8, 7, 6], px := fun _ _ _ => 0 }

/-- A concrete output image record before allocation. -/
def sampleToneMapImage : avifRGBImage :=
  { width := 0, height := 0, depth := 8, format := 0, isFloat := 0, rowBytes := 0,
    pixels := [], px := fun _ _ _ => 0 }

/-- A concrete Apply environment in which every external call succeeds. -/
def sampleApplyEnv : ApplyEnv :=
  { pixelBytes := fun _ _ _ => 4
    allocToneMapOk := true
    rgbInfoOk := fun _ _ _ => true
    gammaToLinear := fun _ x => x
    linearToGamma := fun _ x => x
    rgbToRgbMatrix := fun _ _ => some fun _ _ => 0
    powf := fun _ _ => 0
    exp2f := fun _ => 1
    setPx := fun bytes _ _ _ => bytes
    setViewRectRes := fun _ => .ok
    imageScale := fun img _ _ => (.ok, img)
    rgbDefaults := fun _ => (0, 8, 0)
    allocGainMapRgbOk := true
    yuvToRgb := fun _ => (.ok, fun _ _ _ => 0) }

/-- A concrete Compute environment in which every external call succeeds
except avifGetRGBColorSpaceInfo on the scratch gain-map RGB buffer: the
scratch defaults use format 7 while only format 0 is supported. This drives
execution into the direct return at gainmap.c line 789. -/
def sampleComputeEnv : ComputeEnv :=
  { rgbInfoOk := fun f _ _ => f == 0
    rgbToRgbMatrix := fun _ _ => some fun _ _ => 0
    yCoeffs := fun _ _ => 0
    gammaToLinear := fun _ x => x
    log2f := fun _ => 0
    powf := fun _ _ => 0
    allocFOk := fun _ => true
    doubleToUnsignedFraction := fun _ => some ⟨0, 1⟩
    doubleToSignedFraction := fun _ => some ⟨0, 1⟩
    histAllocOk := true
    allocPlanesOk := true
    rgbDefaults := fun _ => (7, 8, 0)
    allocRgbOk := true
    setPx := fun bytes _ _ _ => bytes
    rgbToYuvRes := fun _ => .ok
    imageScale := fun img _ _ => (.ok, img)
    manualBaseHdrHeadroom := 0
    manualAlternateHdrHeadroom := 1 }

/-! ## Shared lemmas -/

lemma AVIF_CLAMP_mem (x low high : ℚ) (h : low ≤ high) :
    low ≤ AVIF_CLAMP x low high ∧ AVIF_CLAMP x low high ≤ high := by
  unfold AVIF_CLAMP
  split_ifs with h1 h2 <;> constructor <;> linarith

lemma getGainMapWeight_zero (hdrHeadroom : ℚ) (g : avifGainMap)
    (h : avifUnsignedFractionToFloat g.baseHdrHeadroom =
         avifUnsignedFractionToFloat g.alternateHdrHeadroom) :
    avifGetGainMapWeight hdrHeadroom g = 0 := by
  unfold avifGetGainMapWeight
  rw [if_pos h]

/-! ## Claim theorems: metadata and weight -/

/-- C5: for every hdrHeadroom and metadata the gain-map weight lies in
[-1, 1]; it is 0 when the float values of the two headrooms coincide, and
otherwise equals the clamped interpolation ratio, negated when the alternate
headroom is below the base headroom. -/
theorem getGainMapWeight_spec (hdrHeadroom : ℚ) (g : avifGainMap) :
    -1 ≤ avifGetGainMapWeight hdrHeadroom g ∧ avifGetGainMapWeight hdrHeadroom g ≤ 1 ∧
    (avifUnsignedFractionToFloat g.baseHdrHeadroom =
        avifUnsignedFractionToFloat g.alternateHdrHeadroom →
      avifGetGainMapWeight hdrHeadroom g = 0) ∧
    (avifUnsignedFractionToFloat g.baseHdrHeadroom ≠
        avifUnsignedFractionToFloat g.alternateHdrHeadroom →
      avifGetGainMapWeight hdrHeadroom g =
        if avifUnsignedFractionToFloat g.alternateHdrHeadroom <
            avifUnsignedFractionToFloat g.baseHdrHeadroom then
          -(AVIF_CLAMP ((hdrHeadroom - avifUnsignedFractionToFloat g.baseHdrHeadroom) /
              (avifUnsignedFractionToFloat g.alternateHdrHeadroom -
               avifUnsignedFractionToFloat g.baseHdrHeadroom)) 0 1)
        else
          AVIF_CLAMP ((hdrHeadroom - avifUnsignedFractionToFloat g.baseHdrHeadroom) /
              (avifUnsignedFractionToFloat g.alternateHdrHeadroom -
               avifUnsignedFractionToFloat g.baseHdrHeadroom)) 0 1) := by
  have hcl := AVIF_CLAMP_mem ((hdrHeadroom - avifUnsignedFractionToFloat g.baseHdrHeadroom) /
      (avifUnsignedFractionToFloat g.alternateHdrHeadroom -
       avifUnsignedFractionToFloat g.baseHdrHeadroom)) 0 1 (by norm_num)
  unfold avifGetGainMapWeight
  by_cases heq : avifUnsignedFractionToFloat g.baseHdrHeadroom =
      avifUnsignedFractionToFloat g.alternateHdrHeadroom
  · rw [if_pos heq]
    refine ⟨by norm_num, by norm_num, fun _ => rfl, fun hne => absurd heq hne⟩
  · rw [if_neg heq]
    by_cases hlt : avifUnsignedFractionToFloat g.alternateHdrHeadroom <
        avifUnsignedFractionToFloat g.baseHdrHeadroom
    · rw [if_pos hlt]
      exact ⟨by linarith [hcl.1, hcl.2], by linarith [hcl.1, hcl.2],
             fun h => absurd h heq, fun _ => rfl⟩
    · rw [if_neg hlt]
      exact ⟨by linarith [hcl.1, hcl.2], by linarith [hcl.1, hcl.2],
             fun h => absurd h heq, fun _ => rfl⟩

/-- C5 witness: the weight spec evaluated at a concrete headroom and the
default metadata (base headroom 0, alternate headroom 1). -/
theorem getGainMapWeight_spec_witness :
    (avifUnsignedFractionToFloat sampleGainMap.baseHdrHeadroom ≠
        avifUnsignedFractionToFloat sampleGainMap.alternateHdrHeadroom) ∧
    -1 ≤ avifGetGainMapWeight 2 sampleGainMap ∧ avifGetGainMapWeight 2 sampleGainMap ≤ 1 :=
  ⟨by norm_num [sampleGainMap, avifUnsignedFractionToFloat],
    (getGainMapWeight_spec 2 sampleGainMap).1,
    (getGainMapWeight_spec 2 sampleGainMap).2.1⟩

lemma wrap64_eq_self (x : ℤ) (h1 : -(2 ^ 63) ≤ x) (h2 : x < 2 ^ 63) : wrap64 x = x := by
  unfold wrap64
  rw [Int.emod_eq_of_lt (by omega) (by omega)]
  omega

lemma crossMul_iff (mn mx : avifSignedFraction)
    (hrange : -(2 ^ 31) ≤ mn.n ∧ mn.n < 2 ^ 31 ∧ mn.d < 2 ^ 32 ∧
              -(2 ^ 31) ≤ mx.n ∧ mx.n < 2 ^ 31 ∧ mx.d < 2 ^ 32)
    (hdn : mn.d ≠ 0) (hdx : mx.d ≠ 0) :
    ¬ (wrap64 (mx.n * ((mn.d : ℕ) : ℤ)) < wrap64 (mn.n * ((mx.d : ℕ) : ℤ))) ↔
      (mn.n : ℚ) / ((mn.d : ℕ) : ℚ) ≤ (mx.n : ℚ) / ((mx.d : ℕ) : ℚ) := by
  obtain ⟨h1, h2, h3, h4, h5, h6⟩ := hrange
  have hdnz : (0 : ℤ) ≤ (mn.d : ℤ) := Int.natCast_nonneg _
  have hdxz : (0 : ℤ) ≤ (mx.d : ℤ) := Int.natCast_nonneg _
  have hdnz2 : (mn.d : ℤ) < 2 ^ 32 := by exact_mod_cast h3
  have hdxz2 : (mx.d : ℤ) < 2 ^ 32 := by exact_mod_cast h6
  have w1 : wrap64 (mx.n * ((mn.d : ℕ) : ℤ)) = mx.n * ((mn.d : ℕ) : ℤ) := by
    apply wrap64_eq_self <;> nlinarith
  have w2 : wrap64 (mn.n * ((mx.d : ℕ) : ℤ)) = mn.n * ((mx.d : ℕ) : ℤ) := by
    apply wrap64_eq_self <;> nlinarith
  have hposn : (0 : ℚ) < ((mn.d : ℕ) : ℚ) := by
    exact_mod_cast Nat.pos_of_ne_zero hdn
  have hposx : (0 : ℚ) < ((mx.d : ℕ) : ℚ) := by
    exact_mod_cast Nat.pos_of_ne_zero hdx
  rw [w1, w2, not_lt, div_le_div_iff₀ hposn hposx]
  constructor
  · intro h; exact_mod_cast h
  · intro h; exact_mod_cast h

/-- C2: avifGainMapValidateMetadata returns Ok exactly when the four
invariants of section 3 hold (with the min/max ordering read as an exact
rational comparison: the 64-bit cross products cannot overflow for int32
numerators and uint32 denominators), and returns InvalidArgument in every
other case. The embedding is a pure function of the metadata (the C function
takes a const pointer and never writes through it). -/
theorem validateMetadata_spec (g : avifGainMap) (hr : GainMapFractionsInRange g) :
    (avifGainMapValidateMetadata g = .ok ↔ GainMapMetadataValidSpec g) ∧
    (avifGainMapValidateMetadata g ≠ .ok → avifGainMapValidateMetadata g = .invalidArgument) := by
  have key : ((∀ i : Fin 3,
        ((g.gainMapMin i).d ≠ 0 ∧ (g.gainMapMax i).d ≠ 0 ∧ (g.gainMapGamma i).d ≠ 0 ∧
         (g.baseOffset i).d ≠ 0 ∧ (g.alternateOffset i).d ≠ 0) ∧
        ¬ (wrap64 ((g.gainMapMax i).n * ((g.gainMapMin i).d : ℤ)) <
           wrap64 ((g.gainMapMin i).n * ((g.gainMapMax i).d : ℤ))) ∧
        (g.gainMapGamma i).n ≠ 0) ∧
      g.baseHdrHeadroom.d ≠ 0 ∧ g.alternateHdrHeadroom.d ≠ 0 ∧
      (g.useBaseColorSpace = 0 ∨ g.useBaseColorSpace = 1)) ↔ GainMapMetadataValidSpec g := by
    unfold GainMapMetadataValidSpec
    constructor
    · rintro ⟨hch, hh1, hh2, hub⟩
      refine ⟨fun c => (hch c).1, hh1, hh2, fun c => ?_, fun c => (hch c).2.2, hub⟩
      exact (crossMul_iff _ _ (hr c) ((hch c).1).1 ((hch c).1).2.1).mp (hch c).2.1
    · rintro ⟨hden, hh1, hh2, hratioOrd, hgam, hub⟩
      refine ⟨fun c => ⟨hden c, ?_, hgam c⟩, hh1, hh2, hub⟩
      exact (crossMul_iff _ _ (hr c) (hden c).1 (hden c).2.1).mpr (hratioOrd c)
  unfold avifGainMapValidateMetadata
  split_ifs with hcond
  · exact ⟨⟨fun _ => key.mp hcond, fun _ => rfl⟩, fun h => absurd rfl h⟩
  · exact ⟨⟨fun h => absurd h (by simp), fun hs => absurd (key.mpr hs) hcond⟩, fun _ => rfl⟩

/-- C2 witness: the default metadata is within machine ranges and the
validator equivalence applies to it. -/
theorem validateMetadata_spec_witness :
    GainMapFractionsInRange sampleGainMap ∧
    (avifGainMapValidateMetadata sampleGainMap = .ok ↔
      GainMapMetadataValidSpec sampleGainMap) :=
  ⟨by decide, (validateMetadata_spec sampleGainMap (by decide)).1⟩

lemma unsignedFraction_ext (x y : avifUnsignedFraction) (hn : x.n = y.n) (hd : x.d = y.d) :
    x = y := by
  cases x; cases y; cases hn; cases hd; rfl

lemma signedFraction_ext (x y : avifSignedFraction) (hn : x.n = y.n) (hd : x.d = y.d) :
    x = y := by
  cases x; cases y; cases hn; cases hd; rfl

lemma sameMetadata_iff (a b : avifGainMap) :
    avifSameGainMapMetadata a b = true ↔
      (a.baseHdrHeadroom = b.baseHdrHeadroom ∧ a.alternateHdrHeadroom = b.alternateHdrHeadroom ∧
       a.gainMapMin = b.gainMapMin ∧ a.gainMapMax = b.gainMapMax ∧
       a.gainMapGamma = b.gainMapGamma ∧ a.baseOffset = b.baseOffset ∧
       a.alternateOffset = b.alternateOffset) := by
  unfold avifSameGainMapMetadata
  split_ifs with hbad1 hbad2
  · constructor
    · intro h; exact absurd h (by simp)
    · rintro ⟨e1, e2, -⟩
      exact absurd hbad1 (by simp [e1, e2])
  · constructor
    · intro h; exact absurd h (by simp)
    · rintro ⟨-, -, e3, e4, e5, e6, e7⟩
      exact absurd hbad2 (by simp [e3, e4, e5, e6, e7])
  · push_neg at hbad1 hbad2
    obtain ⟨e1n, e1d, e2n, e2d⟩ := hbad1
    constructor
    · intro _
      refine ⟨unsignedFraction_ext _ _ e1n e1d, unsignedFraction_ext _ _ e2n e2d,
              ?_, ?_, ?_, ?_, ?_⟩
      · exact funext fun c => signedFraction_ext _ _ (hbad2 c).1 (hbad2 c).2.1
      · exact funext fun c => signedFraction_ext _ _ (hbad2 c).2.2.1 (hbad2 c).2.2.2.1
      · exact funext fun c =>
          unsignedFraction_ext _ _ (hbad2 c).2.2.2.2.1 (hbad2 c).2.2.2.2.2.1
      · exact funext fun c =>
          signedFraction_ext _ _ (hbad2 c).2.2.2.2.2.2.1 (hbad2 c).2.2.2.2.2.2.2.1
      · exact funext fun c =>
          signedFraction_ext _ _ (hbad2 c).2.2.2.2.2.2.2.2.1 (hbad2 c).2.2.2.2.2.2.2.2.2
    · intro _; rfl

/-- C3 counterexample: perturbing the single field useBaseColorSpace (a field
of the metadata record) leaves avifSameGainMapMetadata true, refuting the
claim that every single-field perturbation makes it false. All other fields
of the two records are equal. -/
theorem sameMetadata_counterexample :
    avifSameGainMapMetadata sampleGainMap sampleGainMapAltCS = true ∧
    sampleGainMap.useBaseColorSpace ≠ sampleGainMapAltCS.useBaseColorSpace ∧
    sampleGainMap.gainMapMin = sampleGainMapAltCS.gainMapMin ∧
    sampleGainMap.gainMapMax = sampleGainMapAltCS.gainMapMax ∧
    sampleGainMap.gainMapGamma = sampleGainMapAltCS.gainMapGamma ∧
    sampleGainMap.baseOffset = sampleGainMapAltCS.baseOffset ∧
    sampleGainMap.alternateOffset = sampleGainMapAltCS.alternateOffset ∧
    sampleGainMap.baseHdrHeadroom = sampleGainMapAltCS.baseHdrHeadroom ∧
    sampleGainMap.alternateHdrHeadroom = sampleGainMapAltCS.alternateHdrHeadroom ∧
    sampleGainMap.altColorPrimaries = sampleGainMapAltCS.altColorPrimaries ∧
    sampleGainMap.image = sampleGainMapAltCS.image := by
  decide

/-- C3 (amended): avifSameGainMapMetadata is reflexive, and it returns true
exactly when the fields it compares (the two headrooms and the per-channel
min/max/gamma/offset arrays, raw numerators and denominators) all agree; a
perturbation of any one of those fields therefore makes it false, while
fields outside this set (such as useBaseColorSpace) do not affect it. -/
theorem sameMetadata_refl_and_fields (a b : avifGainMap) :
    avifSameGainMapMetadata a a = true ∧
    (avifSameGainMapMetadata a b = true ↔
      (a.baseHdrHeadroom = b.baseHdrHeadroom ∧ a.alternateHdrHeadroom = b.alternateHdrHeadroom ∧
       a.gainMapMin = b.gainMapMin ∧ a.gainMapMax = b.gainMapMax ∧
       a.gainMapGamma = b.gainMapGamma ∧ a.baseOffset = b.baseOffset ∧
       a.alternateOffset = b.alternateOffset)) :=
  ⟨(sameMetadata_iff a a).mpr ⟨rfl, rfl, rfl, rfl, rfl, rfl, rfl⟩, sameMetadata_iff a b⟩

/-! ## Estimator lemmas -/

lemma foldl_min_le_init (rest : List ℚ) : ∀ v0 : ℚ, rest.foldl min v0 ≤ v0 := by
  induction rest with
  | nil => intro v0; exact le_refl _
  | cons a t ih => intro v0; exact (ih (min v0 a)).trans (min_le_left _ _)

lemma le_foldl_max_init (rest : List ℚ) : ∀ v0 : ℚ, v0 ≤ rest.foldl max v0 := by
  induction rest with
  | nil => intro v0; exact le_refl _
  | cons a t ih => intro v0; exact (le_max_left _ _).trans (ih (max v0 a))

lemma listMin_le_listMax (v0 : ℚ) (rest : List ℚ) : listMin v0 rest ≤ listMax v0 rest :=
  (foldl_min_le_init rest v0).trans (le_foldl_max_init rest v0)

lemma maxOutliers_pos_bound (len : ℕ)
    (h : avifRoundf ((len : ℚ) * (1/1000) / 2) ≠ 0) :
    2 * avifRoundf ((len : ℚ) * (1/1000) / 2) < (len : ℤ) := by
  have hx : (0 : ℚ) ≤ (len : ℚ) * (1/1000) / 2 := by positivity
  unfold avifRoundf at *
  rw [if_pos hx] at h ⊢
  have hfl : ((⌊(len : ℚ) * (1/1000) / 2 + 1/2⌋ : ℤ) : ℚ) ≤ (len : ℚ) * (1/1000) / 2 + 1/2 :=
    Int.floor_le _
  have h0 : 0 ≤ ⌊(len : ℚ) * (1/1000) / 2 + 1/2⌋ :=
    Int.le_floor.mpr (by push_cast; linarith)
  have hge1 : 1 ≤ ⌊(len : ℚ) * (1/1000) / 2 + 1/2⌋ := by omega
  have h1q : (1 : ℚ) ≤ (len : ℚ) * (1/1000) / 2 + 1/2 := by
    have := Int.le_floor.mp hge1
    exact_mod_cast this
  have hlen : (1000 : ℚ) ≤ (len : ℚ) := by linarith
  have hq : ((2 * ⌊(len : ℚ) * (1/1000) / 2 + 1/2⌋ : ℤ) : ℚ) < (len : ℚ) := by
    push_cast
    linarith
  exact_mod_cast hq

lemma avifValueToBucketIdx_bounds (v bMin bMax : ℚ) (nb : ℤ)
    (hlt : bMin < bMax) (hnb : 1 ≤ nb) :
    0 ≤ avifValueToBucketIdx v bMin bMax nb ∧ avifValueToBucketIdx v bMin bMax nb < nb := by
  have hcl := AVIF_CLAMP_mem v bMin bMax hlt.le
  have hnbq : (0 : ℚ) ≤ (nb : ℚ) := by exact_mod_cast (by omega : (0:ℤ) ≤ nb)
  have harg : 0 ≤ (AVIF_CLAMP v bMin bMax - bMin) / (bMax - bMin) * (nb : ℚ) := by
    apply mul_nonneg _ hnbq
    apply div_nonneg <;> linarith [hcl.1]
  unfold avifValueToBucketIdx
  constructor
  · apply le_min
    · unfold avifRoundf
      rw [if_pos harg]
      exact Int.le_floor.mpr (by push_cast; linarith)
    · omega
  · exact lt_of_le_of_lt (min_le_right _ _) (by omega)

lemma leftScanGo_result (hist : ℕ → ℕ) (maxOut : ℤ) (upperEdge : ℕ → ℚ) (init : ℚ) :
    ∀ (rem i : ℕ) (outliers : ℤ) (cur : ℚ),
      outliers = ∑ k ∈ Finset.range i, (hist k : ℤ) →
      (cur = init ∨ ∃ j, j < i ∧ hist j = 0 ∧
        (∑ k ∈ Finset.range (j + 1), (hist k : ℤ)) ≤ maxOut ∧ cur = upperEdge (j + 1)) →
      (leftScanGo hist maxOut upperEdge rem i outliers cur = init ∨
        ∃ j, j < i + rem ∧ hist j = 0 ∧
          (∑ k ∈ Finset.range (j + 1), (hist k : ℤ)) ≤ maxOut ∧
          leftScanGo hist maxOut upperEdge rem i outliers cur = upperEdge (j + 1)) := by
  intro rem
  induction rem with
  | zero =>
    intro i outliers cur _ hcur
    simp only [leftScanGo]
    rcases hcur with h | ⟨j, hj, hh, hs, he⟩
    · exact Or.inl h
    · exact Or.inr ⟨j, by omega, hh, hs, he⟩
  | succ rem ih =>
    intro i outliers cur hout hcur
    simp only [leftScanGo]
    by_cases hbreak : maxOut < outliers + (hist i : ℤ)
    · rw [if_pos hbreak]
      rcases hcur with h | ⟨j, hj, hh, hs, he⟩
      · exact Or.inl h
      · exact Or.inr ⟨j, by omega, hh, hs, he⟩
    · rw [if_neg hbreak]
      have hout2 : outliers + (hist i : ℤ) = ∑ k ∈ Finset.range (i + 1), (hist k : ℤ) := by
        rw [Finset.sum_range_succ, ← hout]
      have hnext : (if hist i = 0 then upperEdge (i + 1) else cur) = init ∨
          ∃ j, j < i + 1 ∧ hist j = 0 ∧
            (∑ k ∈ Finset.range (j + 1), (hist k : ℤ)) ≤ maxOut ∧
            (if hist i = 0 then upperEdge (i + 1) else cur) = upperEdge (j + 1) := by
        by_cases hz : hist i = 0
        · rw [if_pos hz]
          refine Or.inr ⟨i, by omega, hz, ?_, rfl⟩
          rw [← hout2]
          omega
        · rw [if_neg hz]
          rcases hcur with h | ⟨j, hj, hh, hs, he⟩
          · exact Or.inl h
          · exact Or.inr ⟨j, by omega, hh, hs, he⟩
      rcases ih (i + 1) (outliers + (hist i : ℤ)) _ hout2 hnext with h | ⟨j, hj, hh, hs, he⟩
      · exact Or.inl h
      · exact Or.inr ⟨j, by omega, hh, hs, he⟩

lemma rightScanGo_result (hist : ℕ → ℕ) (maxOut : ℤ) (lowerEdge : ℕ → ℚ) (init : ℚ)
    (nb : ℕ) :
    ∀ (i2 : ℕ) (outliers : ℤ) (cur : ℚ), i2 ≤ nb →
      outliers = ∑ k ∈ Finset.Ico i2 nb, (hist k : ℤ) →
      (cur = init ∨ ∃ j, i2 ≤ j ∧ j < nb ∧ hist j = 0 ∧
        (∑ k ∈ Finset.Ico j nb, (hist k : ℤ)) ≤ maxOut ∧ cur = lowerEdge j) →
      (rightScanGo hist maxOut lowerEdge i2 outliers cur = init ∨
        ∃ j, j < nb ∧ hist j = 0 ∧
          (∑ k ∈ Finset.Ico j nb, (hist k : ℤ)) ≤ maxOut ∧
          rightScanGo hist maxOut lowerEdge i2 outliers cur = lowerEdge j) := by
  intro i2
  induction i2 with
  | zero =>
    intro outliers cur _ _ hcur
    simp only [rightScanGo]
    rcases hcur with h | ⟨j, _, hj, hh, hs, he⟩
    · exact Or.inl h
    · exact Or.inr ⟨j, hj, hh, hs, he⟩
  | succ i ih =>
    intro outliers cur hle hout hcur
    simp only [rightScanGo]
    by_cases hbreak : maxOut < outliers + (hist i : ℤ)
    · rw [if_pos hbreak]
      rcases hcur with h | ⟨j, _, hj, hh, hs, he⟩
      · exact Or.inl h
      · exact Or.inr ⟨j, hj, hh, hs, he⟩
    · rw [if_neg hbreak]
      have hlt : i < nb := by omega
      have hout2 : outliers + (hist i : ℤ) = ∑ k ∈ Finset.Ico i nb, (hist k : ℤ) := by
        rw [Finset.sum_eq_sum_Ico_succ_bot hlt, ← hout]
        ring
      have hnext : (if hist i = 0 then lowerEdge i else cur) = init ∨
          ∃ j, i ≤ j ∧ j < nb ∧ hist j = 0 ∧
            (∑ k ∈ Finset.Ico j nb, (hist k : ℤ)) ≤ maxOut ∧
            (if hist i = 0 then lowerEdge i else cur) = lowerEdge j := by
        by_cases hz : hist i = 0
        · rw [if_pos hz]
          refine Or.inr ⟨i, le_rfl, hlt, hz, ?_, rfl⟩
          rw [← hout2]
          omega
        · rw [if_neg hz]
          rcases hcur with h | ⟨j, hij, hj, hh, hs, he⟩
          · exact Or.inl h
          · exact Or.inr ⟨j, by omega, hj, hh, hs, he⟩
      rcases ih (outliers + (hist i : ℤ)) _ (by omega) hout2 hnext with h | ⟨j, hj, hh, hs, he⟩
      · exact Or.inl h
      · exact Or.inr ⟨j, hj, hh, hs, he⟩

lemma histBucket_sum (buf : List ℚ) (bMin bMax : ℚ) (nb : ℤ)
    (h : ∀ v ∈ buf, 0 ≤ avifValueToBucketIdx v bMin bMax nb ∧
          avifValueToBucketIdx v bMin bMax nb < nb) :
    ∑ k ∈ Finset.range nb.toNat, histBucket buf bMin bMax nb k = buf.length := by
  induction buf with
  | nil => simp [histBucket]
  | cons a t ih =>
    have ha := h a (List.mem_cons_self a t)
    have ht := fun v hv => h v (List.mem_cons_of_mem a hv)
    have hsingle : ∑ k ∈ Finset.range nb.toNat,
        (if avifValueToBucketIdx a bMin bMax nb = (k : ℤ) then 1 else 0) = 1 := by
      have hk0 : (avifValueToBucketIdx a bMin bMax nb).toNat ∈ Finset.range nb.toNat := by
        apply Finset.mem_range.mpr
        omega
      rw [Finset.sum_eq_single_of_mem ((avifValueToBucketIdx a bMin bMax nb).toNat) hk0
        (by intro k _ hkne; rw [if_neg]; intro hEq; exact hkne (by omega))]
      rw [if_pos (by omega)]
    have hstep : ∀ k ∈ Finset.range nb.toNat, histBucket (a :: t) bMin bMax nb k =
        histBucket t bMin bMax nb k +
          (if avifValueToBucketIdx a bMin bMax nb = (k : ℤ) then 1 else 0) := by
      intro k _
      simp [histBucket, List.countP_cons]
    rw [Finset.sum_congr rfl hstep, Finset.sum_add_distrib, ih ht, hsingle]
    simp

lemma numBuckets_ge_one (bMin bMax : ℚ) (hlt : bMin < bMax) :
    1 ≤ min ⌈(bMax - bMin) / (1/100)⌉ 10000 := by
  have h2 : 0 < ⌈(bMax - bMin) / (1/100)⌉ :=
    Int.ceil_pos.mpr (div_pos (by linarith) (by norm_num))
  omega

lemma findMinMaxHistogram_isSome (buf : List ℚ) (bMin bMax : ℚ) (maxOut : ℤ)
    (hlt : bMin < bMax) :
    ∃ lo hi, findMinMaxHistogram buf bMin bMax maxOut = some (lo, hi) := by
  have hnb := numBuckets_ge_one bMin bMax hlt
  simp only [findMinMaxHistogram]
  rw [if_pos]
  · exact ⟨_, _, rfl⟩
  · rw [List.all_eq_true]
    intro v _
    rw [decide_eq_true_eq]
    exact avifValueToBucketIdx_bounds v bMin bMax _ hlt hnb

lemma edge_mono (bMin bMax : ℚ) (nb : ℤ) (hΔ : 0 ≤ bMax - bMin) (hnb : 1 ≤ nb) :
    ∀ k m : ℕ, k ≤ m →
      avifBucketIdxToValue (k : ℤ) bMin bMax nb ≤ avifBucketIdxToValue (m : ℤ) bMin bMax nb := by
  intro k m hkm
  unfold avifBucketIdxToValue
  have hkm2 : ((k : ℤ) : ℚ) ≤ ((m : ℤ) : ℚ) := by exact_mod_cast hkm
  have hnbq : (0 : ℚ) < ((nb : ℤ) : ℚ) := by exact_mod_cast (by omega : (0:ℤ) < nb)
  have h2 : ((k : ℤ) : ℚ) * (bMax - bMin) ≤ ((m : ℤ) : ℚ) * (bMax - bMin) :=
    mul_le_mul_of_nonneg_right hkm2 hΔ
  have h3 : ((k : ℤ) : ℚ) * (bMax - bMin) / (nb : ℚ) ≤ ((m : ℤ) : ℚ) * (bMax - bMin) / (nb : ℚ) :=
    (div_le_div_iff_of_pos_right hnbq).mpr h2
  linarith

lemma edge_top (bMin bMax : ℚ) (nb : ℤ) (hnb : 1 ≤ nb) :
    avifBucketIdxToValue ((nb.toNat : ℕ) : ℤ) bMin bMax nb = bMax := by
  unfold avifBucketIdxToValue
  have hc : (((nb.toNat : ℕ) : ℤ) : ℚ) = (nb : ℚ) := by
    have : ((nb.toNat : ℕ) : ℤ) = nb := Int.toNat_of_nonneg (by omega)
    exact_mod_cast congrArg (fun z : ℤ => (z : ℚ)) this
  rw [hc]
  have hne : ((nb : ℤ) : ℚ) ≠ 0 := by
    have : (0 : ℚ) < (nb : ℚ) := by exact_mod_cast (by omega : (0:ℤ) < nb)
    exact ne_of_gt this
  field_simp

lemma findMinMaxHistogram_bounds (buf : List ℚ) (bMin bMax : ℚ) (maxOut : ℤ) (lo hi : ℚ)
    (hlt : bMin < bMax) (hN : 2 * maxOut < (buf.length : ℤ))
    (h : findMinMaxHistogram buf bMin bMax maxOut = some (lo, hi)) :
    bMin ≤ lo ∧ lo ≤ hi ∧ hi ≤ bMax := by
  have hnb := numBuckets_ge_one bMin bMax hlt
  simp only [findMinMaxHistogram] at h
  rw [if_pos (by
    rw [List.all_eq_true]
    intro v _
    rw [decide_eq_true_eq]
    exact avifValueToBucketIdx_bounds v bMin bMax _ hlt hnb)] at h
  rw [Option.some.injEq, Prod.mk.injEq] at h
  obtain ⟨hlo, hhi⟩ := h
  set nb : ℤ := min ⌈(bMax - bMin) / (1/100)⌉ 10000 with hnbdef
  have hbounds : ∀ v ∈ buf, 0 ≤ avifValueToBucketIdx v bMin bMax nb ∧
      avifValueToBucketIdx v bMin bMax nb < nb := fun v _ =>
    avifValueToBucketIdx_bounds v bMin bMax nb hlt hnb
  have htotalN := histBucket_sum buf bMin bMax nb hbounds
  have htotal : (∑ k ∈ Finset.range nb.toNat, (histBucket buf bMin bMax nb k : ℤ)) =
      (buf.length : ℤ) := by
    rw [← Nat.cast_sum, htotalN]
  have hΔ : (0 : ℚ) ≤ bMax - bMin := by linarith
  have hmono := edge_mono bMin bMax nb hΔ hnb
  have htop := edge_top bMin bMax nb hnb
  have hzero : avifBucketIdxToValue ((0 : ℕ) : ℤ) bMin bMax nb = bMin := by
    unfold avifBucketIdxToValue
    push_cast
    ring
  have hL := leftScanGo_result (histBucket buf bMin bMax nb) maxOut
      (fun k => avifBucketIdxToValue (k : ℤ) bMin bMax nb) bMin nb.toNat 0 0 bMin
      (by simp) (Or.inl rfl)
  have hR := rightScanGo_result (histBucket buf bMin bMax nb) maxOut
      (fun k => avifBucketIdxToValue (k : ℤ) bMin bMax nb) bMax nb.toNat nb.toNat 0 bMax
      le_rfl (by simp) (Or.inl rfl)
  rw [hlo] at hL
  rw [hhi] at hR
  have hloBounds : bMin ≤ lo ∧ lo ≤ bMax := by
    rcases hL with hL | ⟨j, hj, _, _, hE⟩
    · rw [hL]
      exact ⟨le_rfl, hlt.le⟩
    · rw [hE]
      constructor
      · calc bMin = avifBucketIdxToValue ((0 : ℕ) : ℤ) bMin bMax nb := hzero.symm
          _ ≤ _ := hmono 0 (j + 1) (by omega)
      · calc avifBucketIdxToValue (((j + 1 : ℕ)) : ℤ) bMin bMax nb
            ≤ avifBucketIdxToValue ((nb.toNat : ℕ) : ℤ) bMin bMax nb :=
              hmono (j + 1) nb.toNat (by omega)
          _ = bMax := htop
  have hhiBounds : bMin ≤ hi ∧ hi ≤ bMax := by
    rcases hR with hR | ⟨j, hj, _, _, hE⟩
    · rw [hR]
      exact ⟨hlt.le, le_rfl⟩
    · rw [hE]
      constructor
      · calc bMin = avifBucketIdxToValue ((0 : ℕ) : ℤ) bMin bMax nb := hzero.symm
          _ ≤ _ := hmono 0 j (by omega)
      · calc avifBucketIdxToValue ((j : ℕ) : ℤ) bMin bMax nb
            ≤ avifBucketIdxToValue ((nb.toNat : ℕ) : ℤ) bMin bMax nb :=
              hmono j nb.toNat (by omega)
          _ = bMax := htop
  refine ⟨hloBounds.1, ?_, hhiBounds.2⟩
  rcases hL with hL | ⟨jL, hjL, _, hsL, hEL⟩
  · rw [hL]
    exact hhiBounds.1
  · rcases hR with hR | ⟨jR, hjR, _, hsR, hER⟩
    · rw [hR]
      exact hloBounds.2
    · -- both scans moved: show the scans never cross
      have hcross : jL + 1 ≤ jR := by
        by_contra hcon
        push_neg at hcon
        have hsplit : (∑ k ∈ Finset.range jR, (histBucket buf bMin bMax nb k : ℤ)) +
            (∑ k ∈ Finset.Ico jR nb.toNat, (histBucket buf bMin bMax nb k : ℤ)) =
            (∑ k ∈ Finset.range nb.toNat, (histBucket buf bMin bMax nb k : ℤ)) :=
          Finset.sum_range_add_sum_Ico _ (by omega)
        have hsub : (∑ k ∈ Finset.range jR, (histBucket buf bMin bMax nb k : ℤ)) ≤
            ∑ k ∈ Finset.range (jL + 1), (histBucket buf bMin bMax nb k : ℤ) :=
          Finset.sum_le_sum_of_subset_of_nonneg
            (Finset.range_subset.mpr (by omega))
            (fun i _ _ => Int.natCast_nonneg _)
        rw [htotal] at hsplit
        linarith
      rw [hEL, hER]
      exact hmono (jL + 1) jR hcross

/-- C1: on success, avifFindMinMaxWithoutOutliers returns a pair (lo, hi)
with min(B) <= lo <= hi <= max(B); in particular the left scan advancing
rangeMin over empty low buckets and the right scan advancing rangeMax over
empty high buckets never cross. -/
theorem findMinMax_range_sound (histAllocOk : Bool) (v0 : ℚ) (rest : List ℚ)
    (r : AvifResult) (lo hi : ℚ)
    (h : avifFindMinMaxWithoutOutliers histAllocOk (v0 :: rest) = some (r, lo, hi))
    (hok : r = AvifResult.ok) :
    listMin v0 rest ≤ lo ∧ lo ≤ hi ∧ hi ≤ listMax v0 rest := by
  simp only [avifFindMinMaxWithoutOutliers] at h
  split_ifs at h with hEarly hAlloc
  · rw [Option.some.injEq, Prod.mk.injEq, Prod.mk.injEq] at h
    obtain ⟨-, h2, h3⟩ := h
    rw [← h2, ← h3]
    exact ⟨le_rfl, listMin_le_listMax v0 rest, le_rfl⟩
  · rw [Option.some.injEq, Prod.mk.injEq] at h
    rw [← h.1] at hok
    cases hok
  · push_neg at hEarly
    have hlt : listMin v0 rest < listMax v0 rest := by
      linarith [hEarly.1]
    have hN := maxOutliers_pos_bound (v0 :: rest).length hEarly.2
    cases hfm : findMinMaxHistogram (v0 :: rest) (listMin v0 rest) (listMax v0 rest)
        (avifRoundf ((((v0 :: rest).length : ℕ) : ℚ) * (1/1000) / 2)) with
    | none =>
      rw [hfm] at h
      exact absurd h (by simp)
    | some p =>
      obtain ⟨plo, phi⟩ := p
      rw [hfm] at h
      have hb := findMinMaxHistogram_bounds (v0 :: rest) (listMin v0 rest) (listMax v0 rest)
        (avifRoundf ((((v0 :: rest).length : ℕ) : ℚ) * (1/1000) / 2)) plo phi hlt hN hfm
      simp only [Option.some.injEq, Prod.mk.injEq] at h
      obtain ⟨-, h2, h3⟩ := h
      rw [← h2, ← h3]
      exact hb

/-- C1 witness: a concrete two-element buffer on which the estimator is
evaluated and the range bound instantiated. -/
theorem findMinMax_range_sound_witness :
    listMin 0 [1/100] ≤ 0 ∧ (0 : ℚ) ≤ 1/100 ∧ 1/100 ≤ listMax 0 [1/100] :=
  findMinMax_range_sound true 0 [1/100] AvifResult.ok 0 (1/100)
    (by
      simp only [avifFindMinMaxWithoutOutliers]
      rw [if_pos (Or.inl (by norm_num [listMin, listMax]))]
      norm_num [listMin, listMax])
    rfl

/-- C8: when the raw range is at most two bucket widths or the per-side
outlier budget rounds to zero, the estimator returns exactly the raw
(min, max); an all-equal buffer falls into the first case and yields (v, v). -/
theorem findMinMax_exact_smallRange (histAllocOk : Bool) (v0 : ℚ) (rest : List ℚ)
    (h : listMax v0 rest - listMin v0 rest ≤ 2 * (1/100) ∨
         avifRoundf ((((v0 :: rest).length : ℕ) : ℚ) * (1/1000) / 2) = 0) :
    avifFindMinMaxWithoutOutliers histAllocOk (v0 :: rest) =
      some (AvifResult.ok, listMin v0 rest, listMax v0 rest) := by
  simp only [avifFindMinMaxWithoutOutliers]
  rw [if_pos]
  rcases h with h | h
  · exact Or.inl (by linarith)
  · exact Or.inr h

/-- C8 witness: the all-equal three-element buffer [5, 5, 5] satisfies the
small-range condition and the estimator returns (5, 5). -/
theorem findMinMax_exact_smallRange_witness :
    (listMax 5 [5, 5] - listMin 5 [5, 5] ≤ 2 * (1/100) ∨
      avifRoundf (((([(5 : ℚ), 5, 5]).length : ℕ) : ℚ) * (1/1000) / 2) = 0) ∧
    avifFindMinMaxWithoutOutliers true [(5 : ℚ), 5, 5] =
      some (AvifResult.ok, listMin 5 [5, 5], listMax 5 [5, 5]) :=
  ⟨Or.inl (by norm_num [listMin, listMax]),
   findMinMax_exact_smallRange true 5 [5, 5] (Or.inl (by norm_num [listMin, listMax]))⟩

/-- C10: avifFindMinMaxWithoutOutliers reads gainMapF[0] before any length
check, so it is total exactly on buffers of at least one element: every
nonempty buffer yields Ok or OutOfMemory, and the empty buffer is an
out-of-bounds read (modelled as none). -/
theorem findMinMax_total (histAllocOk : Bool) :
    (∀ (v0 : ℚ) (rest : List ℚ), ∃ r lo hi,
        avifFindMinMaxWithoutOutliers histAllocOk (v0 :: rest) = some (r, lo, hi) ∧
        (r = AvifResult.ok ∨ r = AvifResult.outOfMemory)) ∧
    avifFindMinMaxWithoutOutliers histAllocOk [] = none := by
  refine ⟨fun v0 rest => ?_, rfl⟩
  simp only [avifFindMinMaxWithoutOutliers]
  split_ifs with h1 h2
  · exact ⟨AvifResult.ok, _, _, rfl, Or.inl rfl⟩
  · exact ⟨AvifResult.outOfMemory, _, _, rfl, Or.inr rfl⟩
  · push_neg at h1
    have hlt : listMin v0 rest < listMax v0 rest := by
      linarith [h1.1]
    obtain ⟨lo, hi, heq⟩ := findMinMaxHistogram_isSome (v0 :: rest)
      (listMin v0 rest) (listMax v0 rest)
      (avifRoundf ((((v0 :: rest).length : ℕ) : ℚ) * (1/1000) / 2)) hlt
    rw [heq]
    exact ⟨AvifResult.ok, lo, hi, rfl, Or.inl rfl⟩

/-! ## Apply pipeline theorems -/

/-- C6: with equal base and alternate headrooms (so weight 0) and an output
whose pixel format, depth, float-ness, primaries and transfer equal the
base's, avifRGBImageApplyGainMap takes the memcpy fast path: it succeeds and
the output pixel buffer is byte-identical to the base image's buffer. -/
theorem applyGainMap_weightZero_identity (env : ApplyEnv) (base : avifRGBImage)
    (basePrim baseTrans : ℕ) (gm : avifGainMap) (hdrHeadroom : ℚ)
    (tm0 : avifRGBImage) (wantCLLI : Bool)
    (_hwh : 1 ≤ base.width * base.height)
    (hhr : 0 ≤ hdrHeadroom)
    (hvalid : avifGainMapValidateMetadata gm = .ok)
    (hweq : avifUnsignedFractionToFloat gm.baseHdrHeadroom =
            avifUnsignedFractionToFloat gm.alternateHdrHeadroom)
    (hfmt : tm0.format = base.format) (hdepth : tm0.depth = base.depth)
    (hfl : tm0.isFloat = base.isFloat)
    (halloc : env.allocToneMapOk = true)
    (hrow : base.rowBytes = base.width * env.pixelBytes base.format base.depth base.isFloat)
    (hlen : base.pixels.length = base.rowBytes * base.height) :
    ∃ tmOut, avifRGBImageApplyGainMap env (some base) basePrim baseTrans (some gm)
        hdrHeadroom basePrim baseTrans (some tm0) wantCLLI =
        some (.ok, some tmOut, none) ∧ tmOut.pixels = base.pixels := by
  have hw : avifGetGainMapWeight hdrHeadroom gm = 0 := getGainMapWeight_zero hdrHeadroom gm hweq
  have hrow' : base.width * env.pixelBytes tm0.format tm0.depth tm0.isFloat = base.rowBytes := by
    rw [hfmt, hdepth, hfl]
    exact hrow.symm
  simp only [avifRGBImageApplyGainMap]
  rw [if_neg (not_lt.mpr hhr)]
  rw [if_neg (by simp [hvalid])]
  rw [if_neg (by simp [halloc])]
  rw [if_pos (by
    refine ⟨hw, ?_, ?_, by simp [hfmt], by simp [hdepth], by simp [hfl]⟩ <;> trivial)]
  rw [if_neg (by
    push_neg
    exact ⟨by rw [hrow'], rfl⟩)]
  rw [if_neg (by rw [not_lt, hlen])]
  refine ⟨_, rfl, ?_⟩
  show List.take (base.rowBytes * base.height) base.pixels ++
      List.drop (base.rowBytes * base.height)
        (List.replicate
          (base.width * env.pixelBytes tm0.format tm0.depth tm0.isFloat * base.height) 0) =
      base.pixels
  rw [List.drop_eq_nil_of_le (by rw [List.length_replicate, hrow']), List.append_nil,
    ← hlen, List.take_length]

/-- C6 witness: a concrete 1x1 base image copied byte-for-byte through the
weight-zero fast path. -/
theorem applyGainMap_weightZero_identity_witness :
    ∃ tmOut, avifRGBImageApplyGainMap sampleApplyEnv (some sampleBaseImage) 1 1
        (some sampleGainMapEqHeadroom) 0 1 1 (some sampleToneMapImage) false =
        some (.ok, some tmOut, none) ∧ tmOut.pixels = sampleBaseImage.pixels :=
  applyGainMap_weightZero_identity sampleApplyEnv sampleBaseImage 1 1 sampleGainMapEqHeadroom
    0 sampleToneMapImage false (by decide) le_rfl (by decide)
    (by norm_num [sampleGainMapEqHeadroom, sampleGainMap, avifUnsignedFractionToFloat])
    rfl rfl rfl rfl (by decide) (by decide)

/-- C9: avifRGBImageApplyGainMap returns InvalidArgument whenever the target
headroom is negative, any of the three image pointers is null, or the
metadata fails validation; the checks run before any tone-mapping work, so
the result is the same for every environment and the output image is left
untouched. -/
theorem applyGainMap_invalidArgument (env : ApplyEnv) (baseImage : Option avifRGBImage)
    (basePrim baseTrans : ℕ) (gainMap : Option avifGainMap) (hdrHeadroom : ℚ)
    (outPrim outTrans : ℕ) (tm : Option avifRGBImage) (wantCLLI : Bool)
    (h : hdrHeadroom < 0 ∨ baseImage = none ∨ gainMap = none ∨ tm = none ∨
         (∀ g, gainMap = some g → avifGainMapValidateMetadata g ≠ .ok)) :
    avifRGBImageApplyGainMap env baseImage basePrim baseTrans gainMap hdrHeadroom
      outPrim outTrans tm wantCLLI = some (.invalidArgument, tm, none) := by
  simp only [avifRGBImageApplyGainMap]
  by_cases hneg : hdrHeadroom < 0
  · rw [if_pos hneg]
  · rw [if_neg hneg]
    rcases baseImage with _ | base
    · rcases gainMap with _ | gm <;> rcases tm with _ | tm0 <;> rfl
    · rcases gainMap with _ | gm
      · rcases tm with _ | tm0 <;> rfl
      · rcases tm with _ | tm0
        · rfl
        · have hval : avifGainMapValidateMetadata gm ≠ .ok := by
            rcases h with h | h | h | h | h
            · exact absurd h hneg
            · exact absurd h (by simp)
            · exact absurd h (by simp)
            · exact absurd h (by simp)
            · exact h gm rfl
          exact if_pos hval

/-- C9 witness: a negative headroom on concrete inputs yields
InvalidArgument. -/
theorem applyGainMap_invalidArgument_witness :
    avifRGBImageApplyGainMap sampleApplyEnv (some sampleBaseImage) 1 1 (some sampleGainMap)
      (-1) 1 1 (some sampleToneMapImage) false =
      some (.invalidArgument, some sampleToneMapImage, none) :=
  applyGainMap_invalidArgument sampleApplyEnv (some sampleBaseImage) 1 1 (some sampleGainMap)
    (-1) 1 1 (some sampleToneMapImage) false (Or.inl (by norm_num))

/-! ## Compute pipeline theorems -/

lemma getD_map_negOne (l : List ℚ) (t : ℕ) :
    (l.map fun v => v * (-1)).getD t 0 = -(l.getD t 0) := by
  induction l generalizing t with
  | nil => simp
  | cons a tl ih =>
    cases t with
    | zero =>
      simp [List.getD_cons_zero]
    | succ n => simpa [List.getD_cons_succ] using ih n

/-- C7: the sign-flip pass applied by Compute to the raw per-channel
log2-ratio buffers (and whose output feeds the robust range estimation and
the normalization in avifRGBImageComputeGainMap) negates every stored sample
exactly when the alternate headroom is strictly below the base headroom, and
keeps every sample unchanged otherwise. -/
theorem computeSignFlip_spec (env : ComputeEnv) (base alt : avifRGBImage)
    (baseTrans altTrans : ℕ) (csDiffer useBaseCS : Bool)
    (coeffs : Fin 3 → Fin 3 → ℚ) (yC : Fin 3 → ℚ) (singleChannel : Bool)
    (baseOffF altOffF : Fin 3 → ℚ) (width height : ℕ) (c : Fin 3)
    (alternateHeadroom baseHeadroom : ℚ) (t : ℕ) :
    (computeSignFlip alternateHeadroom baseHeadroom
        (computeRawGainF env base alt baseTrans altTrans csDiffer useBaseCS coeffs yC
          singleChannel baseOffF altOffF width height c)).getD t 0 =
      if alternateHeadroom < baseHeadroom then
        -((computeRawGainF env base alt baseTrans altTrans csDiffer useBaseCS coeffs yC
            singleChannel baseOffF altOffF width height c).getD t 0)
      else
        (computeRawGainF env base alt baseTrans altTrans csDiffer useBaseCS coeffs yC
          singleChannel baseOffF altOffF width height c).getD t 0 := by
  unfold computeSignFlip
  split_ifs with hlt
  · exact getD_map_negOne _ t
  · rfl

set_option maxHeartbeats 1600000 in
/-- C4: evaluation of avifRGBImageComputeGainMap at a concrete input on
which avifGetRGBColorSpaceInfo fails for the scratch gain-map RGB buffer.
The function returns NotImplemented through the direct return of gainmap.c
line 789, which bypasses the cleanup label: at the moment of return all three
gainMapF buffers, the scratch RGB pixels and the freshly allocated YUV planes
are still live, contradicting the resource discipline the claim states (and
the comment at line 563 of the source). -/
theorem computeGainMap_leak_line789 :
    (avifRGBImageComputeGainMap sampleComputeEnv (some sampleBaseImage) 1 1
        (some sampleBaseImage) 1 1 (some sampleGainMapWithImage)).map
        (fun out => (out.1, out.2.1.gainMapF 0, out.2.1.gainMapF 1, out.2.1.gainMapF 2,
          out.2.1.rgbPixels, out.2.1.yuvPlanes)) =
      some (AvifResult.notImplemented, true, true, true, true, true) := by
  have hest : avifFindMinMaxWithoutOutliers true [(0 : ℚ)] =
      some (AvifResult.ok, 0, 0) := by
    simp only [avifFindMinMaxWithoutOutliers, listMin, listMax, List.foldl]
    rw [if_pos (Or.inl (by norm_num))]
  have hsfl : ∀ l : List ℚ, computeSignFlip 1 0 l = l := fun l => by
    unfold computeSignFlip
    rw [if_neg (by norm_num)]
  have hraw1 : ∀ (base alt : avifRGBImage) (bt at2 : ℕ) (cs ub : Bool)
      (coeffs : Fin 3 → Fin 3 → ℚ) (yC : Fin 3 → ℚ) (sc : Bool)
      (bOf aOf : Fin 3 → ℚ) (c : Fin 3),
      computeRawGainF sampleComputeEnv base alt bt at2 cs ub coeffs yC sc bOf aOf 1 1 c =
        [0] := by
    intro base alt bt at2 cs ub coeffs yC sc bOf aOf c
    simp [computeRawGainF, computeRawGainAt, sampleComputeEnv, List.range_succ]
  have hfr : List.finRange 3 = [0, 1, 2] := rfl
  have e1 : sampleComputeEnv.rgbInfoOk 0 8 0 = true := rfl
  have e2 : sampleComputeEnv.rgbInfoOk 7 8 0 = false := rfl
  have e3 : sampleComputeEnv.allocFOk = fun _ => true := rfl
  have e4 : sampleComputeEnv.doubleToUnsignedFraction = fun _ => some ⟨0, 1⟩ := rfl
  have e5 : sampleComputeEnv.doubleToSignedFraction = fun _ => some ⟨0, 1⟩ := rfl
  have e6 : sampleComputeEnv.manualBaseHdrHeadroom = 0 := rfl
  have e7 : sampleComputeEnv.manualAlternateHdrHeadroom = 1 := rfl
  have e8 : sampleComputeEnv.histAllocOk = true := rfl
  have e9 : sampleComputeEnv.allocPlanesOk = true := rfl
  have e10 : sampleComputeEnv.allocRgbOk = true := rfl
  have e11 : sampleComputeEnv.rgbDefaults = fun _ => (7, 8, 0) := rfl
  have e12 : sampleComputeEnv.rgbToRgbMatrix = fun _ _ => some fun _ _ => 0 := rfl
  simp only [avifRGBImageComputeGainMap, sampleBaseImage, sampleGainMapWithImage,
    sampleGainMap, sampleYuvImage, gainMapPlanes, avifChooseColorSpaceForGainMapMath,
    AVIF_PIXEL_FORMAT_NONE, AVIF_PIXEL_FORMAT_COUNT, AVIF_PIXEL_FORMAT_YUV400]
  simp only [e1, e2, e3, e4, e5, e6, e7, e8, e9, e10, e11, e12]
  simp only [hraw1, hsfl, hest, Fin.val_zero, Fin.val_one, Fin.val_two]
  simp only [computeWriteChannel, hfr, List.foldlM_cons, List.foldlM_nil]
  simp [Option.map, computeCleanup, e1, e2, e3, e4, e5, e6, e7, e8, e9, e10, e11, e12,
    hest, hsfl, hraw1, Bind.bind, Except.bind, Pure.pure, Except.pure]

end GainMap
